import Mathlib

/-!
Verification development for the Property Finder repository.

The Python sources are shallowly embedded as executable Lean definitions:
strings become `List Char`, pandas rows become association lists from column
names to values (a missing association models a missing column or a NaN cell,
which the source treats identically through `pd.isna` / `row.get`), numbers
become `ℚ`, and fallible operations return `Option`.  Each definition is a
direct translation of the function of the same name in the sources
(`Email_Fetcher.py`, `distance_calculator.py`, `Stringtocordinates.py`).
-/

set_option maxRecDepth 20000

/-! ## Python string primitives used by the sources -/

/-- Model of Python `str.lower()` restricted to the alphabet the repository
uses (ASCII plus the Norwegian letters Æ, Ø, Å, which occur in the
vague-location list and in addresses). -/
def pyLowerChar (c : Char) : Char :=
  if c = 'Æ' then 'æ'
  else if c = 'Ø' then 'ø'
  else if c = 'Å' then 'å'
  else c.toLower

/-- Python `str.lower()` over the modelled alphabet. -/
def pyLower (s : List Char) : List Char :=
  s.map pyLowerChar

/-- Python whitespace characters recognised by `str.strip()` / `str.split()`
(ASCII subset). -/
def pyIsSpace (c : Char) : Bool :=
  c == ' ' || c == '\t' || c == '\n' || c == '\r' || c == '\x0b' || c == '\x0c'

/-- Python `str.strip()` with no arguments. -/
def pyStrip (s : List Char) : List Char :=
  ((s.dropWhile pyIsSpace).reverse.dropWhile pyIsSpace).reverse

/-- Helper for `pyWords`: accumulates the current word (reversed). -/
def pyWordsAux : List Char → List Char → List (List Char)
  | [], acc => if acc.isEmpty then [] else [acc.reverse]
  | c :: rest, acc =>
    if pyIsSpace c then
      if acc.isEmpty then pyWordsAux rest [] else acc.reverse :: pyWordsAux rest []
    else
      pyWordsAux rest (c :: acc)

/-- Python `str.split()` with no arguments: split on whitespace runs,
dropping empty fragments. -/
def pyWords (s : List Char) : List (List Char) :=
  pyWordsAux s []

/-- Prefix test on character lists (used by the substring scans); splits on
the pattern first so that it evaluates even when the tail of the scanned
string is symbolic. -/
def isPrefixSeq : List Char → List Char → Bool
  | [], _ => true
  | p :: ps, s =>
    match s with
    | [] => false
    | c :: cs => p == c && isPrefixSeq ps cs

/-- Python substring test `needle in haystack`, as a left-to-right scan. -/
def containsSeq (pat : List Char) : List Char → Bool
  | [] => isPrefixSeq pat []
  | c :: rest => isPrefixSeq pat (c :: rest) || containsSeq pat rest

/-- The part of `s` before the first occurrence of `sep`
(Python `s.split(sep)[0]`); the whole string when `sep` does not occur. -/
def upToFirst (sep : List Char) : List Char → List Char
  | [] => []
  | c :: rest =>
    if isPrefixSeq sep (c :: rest) then [] else c :: upToFirst sep rest

/-- The part of `s` after the first occurrence of `sep` (empty when `sep`
does not occur).  `upToFirst sep (afterFirst sep s)` is Python
`s.split(sep)[1]`. -/
def afterFirst (sep : List Char) : List Char → List Char
  | [] => []
  | c :: rest =>
    if isPrefixSeq sep (c :: rest) then (c :: rest).drop sep.length
    else afterFirst sep rest

/-- Hex digit test for percent decoding. -/
def isHexDigitCh (c : Char) : Bool :=
  c.isDigit || ('a' ≤ c && c ≤ 'f') || ('A' ≤ c && c ≤ 'F')

/-- Numeric value of a hex digit. -/
def hexVal (c : Char) : Nat :=
  if c.isDigit then c.toNat - 48
  else if 'a' ≤ c && c ≤ 'f' then c.toNat - 87
  else if 'A' ≤ c && c ≤ 'F' then c.toNat - 55
  else 0

/-- Model of `urllib.parse.unquote` restricted to ASCII percent escapes:
`%XY` with hex digits and value below 128 decodes to that character, any
other escape is left untouched.  (The URLs this repository decodes only
contain ASCII escapes such as `%2F` and `%3F`.) -/
def unquote : List Char → List Char
  | [] => []
  | '%' :: h1 :: h2 :: rest2 =>
    if isHexDigitCh h1 && isHexDigitCh h2 && decide (hexVal h1 * 16 + hexVal h2 < 128) then
      Char.ofNat (hexVal h1 * 16 + hexVal h2) :: unquote rest2
    else '%' :: unquote (h1 :: h2 :: rest2)
  | c :: rest => c :: unquote rest

/-! ## Email_Fetcher.py: identifier extraction -/

/-- Fixed marker of a finn.no tracking/redirect URL. -/
def trackingMarker : List Char := ("click.mailsvc.finn.no/CL0/").toList

/-- Separator used to cut out the encoded part of a tracking URL. -/
def cl0Sep : List Char := ("CL0/").toList

/-- A single slash, the second separator used on tracking URLs. -/
def slashSep : List Char := ("/").toList

/-- Marker of the known malformed double-domain URLs. -/
def doubledDomainPat : List Char := ("www.finn.nohttps://").toList

/-- The `finnkode=` query-parameter name. -/
def finnkodeParamPat : List Char := ("finnkode=").toList

/-- The `finn.no/` path marker of short URLs. -/
def shortUrlPat : List Char := ("finn.no/").toList

/-- The percent-encoded `finn.no%2F` marker scanned in still-encoded URLs. -/
def encodedUrlPat : List Char := ("finn.no%2F").toList

/-- `decode_finn_tracking_url` (Email_Fetcher.py, lines 261-298): when the
URL contains the tracking marker, take the piece between the first and second
occurrence of `CL0/`, cut it at the first `/`, and percent-decode it;
otherwise return the URL unchanged. -/
def decode_finn_tracking_url (url : List Char) : List Char :=
  if containsSeq trackingMarker url then
    unquote (upToFirst slashSep (upToFirst cl0Sep (afterFirst cl0Sep url)))
  else url

/-- Scan for the regex `[?&]finnkode=(\d+)` (first match wins, group is the
maximal digit run after `finnkode=`). -/
def searchParam : List Char → Option (List Char)
  | [] => none
  | c :: rest =>
    if (c == '?' || c == '&') && isPrefixSeq finnkodeParamPat rest
        && !((rest.drop finnkodeParamPat.length).takeWhile Char.isDigit).isEmpty then
      some ((rest.drop finnkodeParamPat.length).takeWhile Char.isDigit)
    else searchParam rest

/-- Trailing-context test of the short-URL regex: the digits must be followed
by `?` or the end of the string. -/
def shortUrlEndOk : List Char → Bool
  | [] => true
  | c :: _ => c == '?'

/-- Scan for the regex `finn\.no/(\d{6,12})(?:\?|$)`: at a position where
`finn.no/` matches, the greedy digit run must have length 6..12 and be
followed by `?` or the end (shorter backtracked runs necessarily end on a
digit, so they never match). -/
def searchShort : List Char → Option (List Char)
  | [] => none
  | c :: rest =>
    if isPrefixSeq shortUrlPat (c :: rest) then
      let t := (c :: rest).drop shortUrlPat.length
      let d := t.takeWhile Char.isDigit
      if (decide (6 ≤ d.length) && decide (d.length ≤ 12)) && shortUrlEndOk (t.drop d.length) then
        some d
      else searchShort rest
    else searchShort rest

/-- Scan for the regex `finn\.no%2F(\d{6,12})`: greedy, so the group is the
first 12 digits of the run when the run is longer. -/
def searchEncoded : List Char → Option (List Char)
  | [] => none
  | c :: rest =>
    if isPrefixSeq encodedUrlPat (c :: rest) then
      let d := ((c :: rest).drop encodedUrlPat.length).takeWhile Char.isDigit
      if decide (6 ≤ d.length) then some (d.take 12)
      else searchEncoded rest
    else searchEncoded rest

/-- `extract_finnkode` (Email_Fetcher.py, lines 301-351): decode tracking
URLs, repair the doubled-domain malformation, then try the query parameter,
the short-URL pattern, and finally (when decoding changed the URL) the
percent-encoded pattern on the original string; `none` when nothing
matches. -/
def extract_finnkode (url : List Char) : Option (List Char) :=
  let d0 := decode_finn_tracking_url url
  let d :=
    if containsSeq doubledDomainPat d0 then
      ("https://").toList ++ upToFirst doubledDomainPat (afterFirst doubledDomainPat d0)
    else d0
  match searchParam d with
  | some g => some g
  | none =>
    match searchShort d with
    | some g => some g
    | none => if url = d then none else searchEncoded url

/-! ## Email_Fetcher.py: address ambiguity classifier -/

/-- `KNOWN_VAGUE_LOCATIONS` (Email_Fetcher.py, lines 195-205). -/
def KNOWN_VAGUE_LOCATIONS : List (List Char) :=
  [("oslo").toList, ("bergen").toList, ("trondheim").toList, ("stavanger").toList,
   ("drammen").toList, ("fredrikstad").toList, ("kristiansand").toList, ("sandnes").toList,
   ("tromsø").toList, ("sarpsborg").toList, ("skien").toList, ("bodø").toList,
   ("ålesund").toList, ("sandefjord").toList, ("larvik").toList, ("arendal").toList,
   ("tønsberg").toList, ("moss").toList, ("haugesund").toList, ("porsgrunn").toList,
   ("halden").toList, ("lillehammer").toList, ("molde").toList, ("harstad").toList,
   ("gjøvik").toList, ("steinkjer").toList, ("askøy").toList, ("kongsberg").toList,
   ("hønefoss").toList, ("elverum").toList, ("hamar").toList, ("jessheim").toList,
   ("ski").toList, ("lillestrøm").toList, ("lørenskog").toList, ("asker").toList,
   ("bærum").toList, ("hagan").toList, ("åmot").toList, ("dal").toList,
   ("langhus").toList, ("stabekk").toList, ("bekkestua").toList, ("fornebu").toList,
   ("lysaker").toList, ("sandvika").toList, ("kolbotn").toList, ("oppegård").toList,
   ("drøbak").toList, ("ås").toList, ("vestby").toList]

/-- Membership in the vague-location list. -/
def inVagueList (s : List Char) : Bool :=
  KNOWN_VAGUE_LOCATIONS.any (fun v => v = s)

/-- `is_ambiguous_address` (Email_Fetcher.py, lines 207-258).  The street
number check of the source (check 4) deliberately has no effect and is
therefore not represented. -/
def is_ambiguous_address (address : List Char) : Bool :=
  if address.isEmpty || address = ("Unknown").toList then true
  else
    let addr_lower := pyStrip (pyLower address)
    if !(containsSeq ((",").toList) address) then true
    else if inVagueList addr_lower then true
    else if decide ((pyWords addr_lower).length ≤ 1) then true
    else
      let first_part := pyLower (pyStrip (upToFirst ((",").toList) address))
      if inVagueList first_part then true else false

/-! ## Tabular data model

A pandas row is modelled as an association list from column names to values;
a column that is absent or holds NaN is modelled by the absence of the
association (the sources only ever interrogate such cells through
`pd.isna` / `row.get`, which cannot tell the two apart). -/

/-- A cell value: a number or a string. -/
inductive Val where
  | vnum (q : ℚ)
  | vstr (s : String)
deriving DecidableEq

/-- A data row. -/
abbrev Row := List (String × Val)

/-- `row.get(col)`: the first value stored under `col`, `none` when the
column is missing (or the cell is NaN). -/
def rowGet (r : Row) (c : String) : Option Val :=
  match r with
  | [] => none
  | (c1, v) :: rest => if c1 = c then some v else rowGet rest c

/-- `df.at[idx, col] = v`: replace the first binding of `col`, or append
one. -/
def rowSet (r : Row) (c : String) (v : Val) : Row :=
  match r with
  | [] => [(c, v)]
  | (c1, v1) :: rest => if c1 = c then (c, v) :: rest else (c1, v1) :: rowSet rest c v

/-- Numeric read of a cell (the sources do arithmetic only on columns pandas
parses as floats, so a non-numeric cell in such a column is modelled as
absent). -/
def getNum (r : Row) (c : String) : Option ℚ :=
  match rowGet r c with
  | some (Val.vnum q) => some q
  | _ => none

/-- Columns used by the pipeline. -/
def colLink : String := "link"

/-- The distance-to-work column. -/
def colDistanceWork : String := "distance_to_work_km"

/-- The transit-time-to-work column. -/
def colTransitWork : String := "transit_time_work_minutes"

/-- The first-seen timestamp column. -/
def colDateRead : String := "date_read"

/-- The latitude column. -/
def colLatitude : String := "latitude"

/-- The longitude column. -/
def colLongitude : String := "longitude"

/-- The geocode status column. -/
def colGeocodeStatus : String := "geocode_status"

/-- The stored work-location latitude column. -/
def colWorkLat : String := "work_lat"

/-- The stored work-location longitude column. -/
def colWorkLng : String := "work_lng"

/-- The stored threshold column. -/
def colMaxTransit : String := "max_transit_time_work_minutes"

/-- The geocode success marker. -/
def statusSuccess : String := "Success"

/-- The completed processing status. -/
def statusCompleted : String := "completed"

/-- The incomplete processing status. -/
def statusIncomplete : String := "incomplete"

/-- The finnkode of a row, read from its `link` cell exactly as every loop of
the sources does (`if link: finnkode = extract_finnkode(link)`; an empty or
non-string link yields `None` either way, since `extract_finnkode` also
returns `None` on those). -/
def kodeOfRow (r : Row) : Option (List Char) :=
  match rowGet r colLink with
  | some (Val.vstr s) => extract_finnkode s.toList
  | _ => none

/-! ## distance_calculator.py: completion status -/

/-- A configured place category (`get_place_categories`,
distance_calculator.py lines 320-329; `column_prefix` defaults to the
category name when not configured). -/
structure PlaceCategory where
  name : String
  keywords : List String
  calculate_transit : Bool
  column_prefix : String
deriving DecidableEq

/-- The walking-time column of a category. -/
def walkingCol (c : PlaceCategory) : String :=
  ("walking_time_") ++ c.column_prefix ++ ("_minutes")

/-- The transit-time column of a category. -/
def transitCol (c : PlaceCategory) : String :=
  ("transit_time_") ++ c.column_prefix ++ ("_minutes")

/-- The per-category part of the completion loop
(distance_calculator.py, lines 366-383). -/
def checkCategories (row : Row) : List PlaceCategory → Bool
  | [] => true
  | c :: rest =>
    if (rowGet row (walkingCol c)).isNone then false
    else if c.calculate_transit && (rowGet row (transitCol c)).isNone then false
    else checkCategories row rest

/-- `check_property_completion_status` (distance_calculator.py, lines
341-387).  The `try`/`except` of the source is vacuous here: the embedding is
total by construction, matching the source's guarantee of returning
`'incomplete'` on any error. -/
def check_property_completion_status (row : Row) (place_categories : List PlaceCategory) : String :=
  if (rowGet row colDistanceWork).isNone || (rowGet row colTransitWork).isNone then
    statusIncomplete
  else if checkCategories row place_categories then statusCompleted
  else statusIncomplete

/-! ## distance_calculator.py: too-far skip set and needs-work selection -/

/-- `work_location_matches` (distance_calculator.py, lines 438-455). -/
def work_location_matches (prev_lat prev_lng : Option ℚ) (current_lat current_lng : ℚ)
    (tolerance : ℚ) : Bool :=
  match prev_lat, prev_lng with
  | some a, some b => decide (|a - current_lat| < tolerance) && decide (|b - current_lng| < tolerance)
  | _, _ => false

/-- Per-row test of `load_too_far_properties` (distance_calculator.py, lines
501-529): a persisted row contributes its finnkode to the skip set iff the
finnkode is derivable, the stored transit time exists and exceeds the current
threshold, and the stored work location matches the current one within the
0.001-degree tolerance. -/
def rowTooFar (r : Row) (current_work_lat current_work_lng current_max_travel_time : ℚ) : Bool :=
  match kodeOfRow r with
  | none => false
  | some _ =>
    match getNum r colTransitWork with
    | none => false
    | some t =>
      if decide (t ≤ current_max_travel_time) then false
      else work_location_matches (getNum r colWorkLat) (getNum r colWorkLng)
        current_work_lat current_work_lng (1/1000)

/-- `load_too_far_properties` (distance_calculator.py, lines 458-534) over an
in-memory image of the persisted distances table. -/
def load_too_far_properties (persisted : List Row)
    (current_work_lat current_work_lng current_max_travel_time : ℚ) : List (List Char) :=
  persisted.filterMap (fun r =>
    if rowTooFar r current_work_lat current_work_lng current_max_travel_time then kodeOfRow r
    else none)

/-- `has_valid_coordinates` (Stringtocordinates.py, lines 79-109): latitude
and longitude present and float-convertible, and `geocode_status` equal to
`'Success'` after `str(...).strip()`. -/
def has_valid_coordinates (r : Row) : Bool :=
  match rowGet r colLatitude, rowGet r colLongitude with
  | some _, some _ =>
    match rowGet r colGeocodeStatus with
    | some (Val.vstr s) => pyStrip s.toList = (statusSuccess).toList
    | _ => false
  | _, _ => false

/-- The needs-geocoding classification of `geocode_properties`
(Stringtocordinates.py, lines 274-299): skip when the finnkode is in the
too-far set, or has an entry in the persisted coordinates store, or the row
itself already carries valid coordinates. -/
def needsGeocoding (r : Row) (too_far existing_coords : List (List Char)) : Bool :=
  match kodeOfRow r with
  | some k =>
    if too_far.contains k then false
    else if existing_coords.contains k then false
    else !(has_valid_coordinates r)
  | none => !(has_valid_coordinates r)

/-- The needs-distance selection of `calculate_distances_and_filter`
(distance_calculator.py, lines 1250-1280 and 1364-1386): only rows not
classified `completed` are considered; among them, a row in the too-far set
is skipped, and otherwise the row is selected iff its distance or
transit-to-work cell is missing. -/
def selectedForDistanceCall (r : Row) (place_categories : List PlaceCategory)
    (too_far : List (List Char)) : Bool :=
  if check_property_completion_status r place_categories = statusCompleted then false
  else if (match kodeOfRow r with
           | some k => too_far.contains k
           | none => false) then false
  else (rowGet r colDistanceWork).isNone || (rowGet r colTransitWork).isNone

/-! ## distance_calculator.py: travel-time filter and places eligibility -/

/-- The primary travel-time filter (distance_calculator.py, lines
1505-1508): transit time present and at most the threshold. -/
def passesTravelTimeFilter (r : Row) (max_travel_time : ℚ) : Bool :=
  match getNum r colTransitWork with
  | some t => decide (t ≤ max_travel_time)
  | none => false

/-- The any-category places-data probe of the requalification loop
(distance_calculator.py, lines 1553-1559). -/
def hasPlacesData (r : Row) (place_categories : List PlaceCategory) : Bool :=
  place_categories.any (fun c => (rowGet r (walkingCol c)).isSome)

/-- The threshold-increase requalification loop (distance_calculator.py,
lines 1528-1585), per row: rows already passing the primary filter are
skipped; the rest must pass the current threshold, match the stored work
location, and either lack any places data (no stored threshold) or have a
stored threshold smaller than the current one. -/
def requalifiesForPlaces (r : Row) (max_travel_time current_work_lat current_work_lng : ℚ)
    (place_categories : List PlaceCategory) : Bool :=
  if passesTravelTimeFilter r max_travel_time then false
  else
    match getNum r colTransitWork with
    | none => false
    | some t =>
      if !(decide (t ≤ max_travel_time)) then false
      else if !(work_location_matches (getNum r colWorkLat) (getNum r colWorkLng)
          current_work_lat current_work_lng (1/1000)) then false
      else
        let needs_places_api :=
          match getNum r colMaxTransit with
          | none => !(hasPlacesData r place_categories)
          | some m => decide (m < max_travel_time)
        if needs_places_api then
          if !(decide (t ≤ max_travel_time)) then false else true
        else false

/-- Membership in the filtered set that receives places API calls:
the primary filter or the requalification loop. -/
def placesEligible (r : Row) (max_travel_time current_work_lat current_work_lng : ℚ)
    (place_categories : List PlaceCategory) : Bool :=
  passesTravelTimeFilter r max_travel_time ||
    requalifiesForPlaces r max_travel_time current_work_lat current_work_lng place_categories

/-! ## distance_calculator.py: the merge of new listings with the persisted store

`calculate_distances_and_filter` (lines 1163-1234) merges the persisted
distances table with the newly geocoded listings, then (lines 1241-1269)
re-applies the persisted per-finnkode data onto the merged rows.  Keyed maps
built by dict assignment (later rows overwrite earlier ones) are modelled by
`buildMap`. -/

/-- Association-map lookup keyed by finnkode. -/
def mapGet {V : Type} (m : List (List Char × V)) (k : List Char) : Option V :=
  match m with
  | [] => none
  | (k1, v) :: rest => if k1 = k then some v else mapGet rest k

/-- Association-map update (Python dict assignment). -/
def mapSet {V : Type} (m : List (List Char × V)) (k : List Char) (v : V) :
    List (List Char × V) :=
  match m with
  | [] => [(k, v)]
  | (k1, v1) :: rest => if k1 = k then (k, v) :: rest else (k1, v1) :: mapSet rest k v

/-- Build a keyed map from a row list by dict assignment: rows later in the
list overwrite earlier ones. -/
def buildMap {V : Type} (l : List Row) (keyf : Row → Option (List Char)) (valf : Row → V) :
    List (List Char × V) :=
  l.foldl (fun m r =>
    match keyf r with
    | some k => mapSet m k (valf r)
    | none => m) []

/-- Key function of the `original_date_read` map (lines 1183-1190): rows with
a derivable finnkode and a present `date_read`. -/
def dateReadKey (r : Row) : Option (List Char) :=
  match kodeOfRow r, rowGet r colDateRead with
  | some k, some _ => some k
  | _, _ => none

/-- Key function of the `new_coords_map` (lines 1192-1201): rows with a
derivable finnkode and at least one coordinate present. -/
def coordsKey (r : Row) : Option (List Char) :=
  match kodeOfRow r with
  | some k =>
    if (rowGet r colLatitude).isSome || (rowGet r colLongitude).isSome then some k else none
  | none => none

/-- Value stored by the `new_coords_map`: the new row's latitude, longitude
and geocode status. -/
def coordsVal (r : Row) : Option Val × Option Val × Option Val :=
  (rowGet r colLatitude, rowGet r colLongitude, rowGet r colGeocodeStatus)

/-- `pd.concat` + `drop_duplicates(subset=['_finnkode'], keep='first')`
(lines 1203-1206).  pandas treats missing keys as equal to each other, so a
`none` key also deduplicates. -/
def dedupByKodeAux : List Row → List (Option (List Char)) → List Row
  | [], _ => []
  | r :: rest, seen =>
    if seen.contains (kodeOfRow r) then dedupByKodeAux rest seen
    else r :: dedupByKodeAux rest (kodeOfRow r :: seen)

/-- One conditional cell update of the coordinate back-fill loop: set `c` on
`acc` when the snapshot row misses it and the new data provides it. -/
def fillCellFrom (snapshot acc : Row) (c : String) (newv : Option Val) : Row :=
  match rowGet snapshot c, newv with
  | none, some v => rowSet acc c v
  | _, _ => acc

/-- The coordinate back-fill loop (lines 1208-1218): fill latitude, longitude
and geocode status from the new data when the merged row misses them (the
conditions read the row snapshot, the three columns are distinct). -/
def fillCoordsRow (m : List (List Char × (Option Val × Option Val × Option Val))) (r : Row) :
    Row :=
  match kodeOfRow r with
  | some k =>
    match mapGet m k with
    | some (la, lo, st) =>
      fillCellFrom r (fillCellFrom r (fillCellFrom r r colLatitude la) colLongitude lo)
        colGeocodeStatus st
    | none => r
  | none => r

/-- The `date_read` restore loop (lines 1220-1225): unconditionally put back
the original first-seen value for rows whose finnkode has one. -/
def restoreDateReadRow (m : List (List Char × Option Val)) (r : Row) : Row :=
  match kodeOfRow r with
  | some k =>
    match mapGet m k with
    | some (some d) => rowSet r colDateRead d
    | _ => r
  | none => r

/-- The merge block (lines 1163-1234): column alignment is implicit in the
row model; dedupe keeps the first (persisted) row per finnkode, coordinates
are back-filled from the new data, original `date_read` values are restored,
and only rows whose geocode status is `Success` are kept (lines 1230-1232;
the rows of this pipeline always carry the `geocode_status` column). -/
def mergeStep (existing new : List Row) : List Row :=
  let odr := buildMap existing dateReadKey (fun r => rowGet r colDateRead)
  let ncm := buildMap new coordsKey coordsVal
  let combined := dedupByKodeAux (existing ++ new) []
  ((combined.map (fillCoordsRow ncm)).map (restoreDateReadRow odr)).filter
    (fun r => decide (rowGet r colGeocodeStatus = some (Val.vstr statusSuccess)))

/-- The per-column application of a persisted record onto a merged row
(lines 1259-1269): a column the row misses is filled in; a present column is
kept, except `date_read`, which is always reset to the persisted value.
Persisted NaN cells are absent from the record and hence no-ops, exactly as
in the source. -/
def applyExisting (r e : Row) : Row :=
  e.foldl (fun acc cv =>
    if cv.1 = colDateRead then rowSet acc cv.1 cv.2
    else if (rowGet acc cv.1).isNone then rowSet acc cv.1 cv.2
    else acc) r

/-- `load_existing_distance_data` (lines 390-435) over an in-memory image of
the persisted table: a map from finnkode to the full persisted row, later
rows overwriting earlier ones. -/
def buildExistingData (persisted : List Row) : List (List Char × Row) :=
  buildMap persisted kodeOfRow (fun r => r)

/-- The existing-data application loop (lines 1250-1269), per row: rows whose
finnkode has a persisted record get it applied via `applyExisting`. -/
def applyRow (data : List (List Char × Row)) (r : Row) : Row :=
  match kodeOfRow r with
  | some k =>
    match mapGet data k with
    | some e => applyExisting r e
    | none => r
  | none => r

/-- The complete reconciliation stage: merge, then apply persisted data. -/
def reconcileStore (persisted new : List Row) : List Row :=
  (mergeStep persisted new).map (applyRow (buildExistingData persisted))

/-! ## distance_calculator.py: API error handling and retry -/

/-- Rate-limit classification of `handle_api_error` (lines 170-175). -/
def isRateLimitError (error : String) : Bool :=
  let e := pyLower error.toList
  containsSeq (("429").toList) e || containsSeq (("rate limit").toList) e ||
    containsSeq (("quota exceeded").toList) e || containsSeq (("over_query_limit").toList) e

/-- Transient/server-side classification of `handle_api_error`
(lines 177-181). -/
def isTemporaryError (error : String) : Bool :=
  let e := pyLower error.toList
  containsSeq (("500").toList) e || containsSeq (("503").toList) e ||
    containsSeq (("service unavailable").toList) e

/-- The observable outcome of `handle_api_error`: its boolean return value,
the seconds slept before returning, and whether the sliding-window call
tracker of the API family was cleared. -/
structure ApiErrorDecision where
  should_retry : Bool
  wait_seconds : ℕ
  cleared_window : Bool
deriving DecidableEq

/-- `handle_api_error` (distance_calculator.py, lines 164-201): rate-limit
errors sleep `5 * 2 ^ retry_count` seconds, clear the window tracker and ask
for a retry; transient errors below the retry cap sleep `2 ^ retry_count`
seconds and ask for a retry; anything else declines. -/
def handle_api_error (error : String) (retry_count max_retries : ℕ) : ApiErrorDecision :=
  if isRateLimitError error then ⟨true, 2 ^ retry_count * 5, true⟩
  else if isTemporaryError error && decide (retry_count < max_retries) then
    ⟨true, 2 ^ retry_count, false⟩
  else ⟨false, 0, false⟩

/-- The retry cap of `make_api_call_with_retry` (line 208). -/
def maxRetries : ℕ := 3

/-- The attempt loop of `make_api_call_with_retry` (lines 210-237): the
`api_call` argument gives the outcome of the call at each attempt; fuel
counts the remaining loop iterations.  Sleeps and the call-tracker updates of
successful calls are timing effects outside the embedding. -/
def retryLoop {α : Type} (api_call : ℕ → Except String α) : ℕ → ℕ → Option α
  | 0, _ => none
  | fuel + 1, attempt =>
    match api_call attempt with
    | Except.ok v => some v
    | Except.error e =>
      if (handle_api_error e attempt maxRetries).should_retry then
        retryLoop api_call fuel (attempt + 1)
      else none

/-- `make_api_call_with_retry` (distance_calculator.py, lines 204-237). -/
def make_api_call_with_retry {α : Type} (api_call : ℕ → Except String α) : Option α :=
  retryLoop api_call (maxRetries + 1) 0

/-! ## The four URL shapes of the identifier-extraction contract

These are the four formats documented on `extract_finnkode`
(Email_Fetcher.py, lines 305-309), parametrised by the finnkode. -/

/-- Direct URL with `finnkode` query parameter. -/
def urlShapeDirect (k : List Char) : List Char :=
  ("https://www.finn.no/realestate/lettings/ad.html?finnkode=").toList ++ k

/-- Short numeric-path URL. -/
def urlShapeShort (k : List Char) : List Char :=
  ("https://www.finn.no/").toList ++ k

/-- Tracking-redirect URL wrapping the percent-encoded short URL
`https://www.finn.no/<k>?x=1`. -/
def urlShapeTracking (k : List Char) : List Char :=
  ("https://click.mailsvc.finn.no/CL0/https:%2F%2Fwww.finn.no%2F").toList ++ k ++
    ("%3Fx=1/2/0000").toList

/-- Malformed URL with the domain prefix doubled. -/
def urlShapeMalformed (k : List Char) : List Char :=
  ("https://www.finn.nohttps://www.finn.no/").toList ++ k

/-! ## Concrete data used by witnesses and counterexamples -/

/-- The title column (core descriptive field). -/
def colTitle : String := "title"

/-- A gym place category with transit calculation configured. -/
def catEVO : PlaceCategory :=
  ⟨("EVO"), [("EVO"), ("Evo Fitness")], true, ("EVO")⟩

/-- A martial-arts place category without transit calculation. -/
def catMA : PlaceCategory :=
  ⟨("martial_arts"), [("boxing gym"), ("bjj")], false, ("martial_arts")⟩

/-- A fully enriched row for the completion classifier. -/
def rowC1 : Row :=
  [(colDistanceWork, Val.vnum 5), (colTransitWork, Val.vnum 30),
   (("walking_time_EVO_minutes"), Val.vnum 10), (("transit_time_EVO_minutes"), Val.vnum 8),
   (("walking_time_martial_arts_minutes"), Val.vnum 12)]

/-- A row with transit time present but distance missing. -/
def rowC2ce : Row :=
  [(colLink, Val.vstr ("https://www.finn.no/234567")), (colTransitWork, Val.vnum 30)]

/-- An incomplete row whose distance fields are both populated. -/
def rowC2w : Row :=
  [(colLink, Val.vstr ("https://www.finn.no/234568")), (colTransitWork, Val.vnum 25),
   (colDistanceWork, Val.vnum 4)]

/-- A row with a `Success` geocode status but missing coordinates. -/
def rowC3ce : Row :=
  [(colLink, Val.vstr ("https://www.finn.no/345678")),
   (colGeocodeStatus, Val.vstr ("Success"))]

/-- A persisted row whose stored travel time exceeds a 60-minute
threshold. -/
def rowC3w : Row :=
  [(colLink, Val.vstr ("https://www.finn.no/345679")), (colTransitWork, Val.vnum 70),
   (colWorkLat, Val.vnum 59), (colWorkLng, Val.vnum 10)]

/-- A persisted row with travel time 70 and stored threshold 60. -/
def rowC4 : Row :=
  [(colLink, Val.vstr ("https://www.finn.no/456789")), (colTransitWork, Val.vnum 70),
   (colMaxTransit, Val.vnum 60), (colWorkLat, Val.vnum 59), (colWorkLng, Val.vnum 10)]

/-- A persisted row with a first-seen timestamp. -/
def rowC5e : Row :=
  [(colLink, Val.vstr ("https://www.finn.no/567890")),
   (colDateRead, Val.vstr ("2024-01-01 10:00")),
   (colGeocodeStatus, Val.vstr ("Success")), (colDistanceWork, Val.vnum 7)]

/-- The same property fetched again later, with a new timestamp. -/
def rowC5n : Row :=
  [(colLink, Val.vstr ("https://www.finn.no/567890?utm=1")),
   (colDateRead, Val.vstr ("2025-06-01 09:00")),
   (colGeocodeStatus, Val.vstr ("Success"))]

/-- A persisted row lacking the title field. -/
def rowC6e : Row :=
  [(colLink, Val.vstr ("https://www.finn.no/678901")),
   (colGeocodeStatus, Val.vstr ("Success")),
   (colDateRead, Val.vstr ("2024-02-02")), (colDistanceWork, Val.vnum 9)]

/-- The same property in a new batch, carrying a title and coordinates. -/
def rowC6n : Row :=
  [(colLink, Val.vstr ("https://www.finn.no/678901?x=2")),
   (colTitle, Val.vstr ("Fin leilighet")), (("price"), Val.vnum 13000),
   (colLatitude, Val.vnum 59), (colLongitude, Val.vnum 10)]

/-- The expected reconciled row for the merge counterexample: the persisted
row with the new coordinates filled in and no title. -/
def rowC6merged : Row :=
  [(colLink, Val.vstr ("https://www.finn.no/678901")),
   (colGeocodeStatus, Val.vstr ("Success")),
   (colDateRead, Val.vstr ("2024-02-02")), (colDistanceWork, Val.vnum 9),
   (colLatitude, Val.vnum 59), (colLongitude, Val.vnum 10)]

/-- A sample finnkode. -/
def kC7 : List Char := ("123456").toList

/-- An empty row (every column missing). -/
def rowC10 : Row := []

/-! ## Lemmas and claim theorems -/

theorem checkCategories_iff (row : Row) (cats : List PlaceCategory) :
    checkCategories row cats = true ↔
      ∀ c ∈ cats, (rowGet row (walkingCol c)).isSome = true ∧
        (c.calculate_transit = true → (rowGet row (transitCol c)).isSome = true) := by
  induction cats with
  | nil => simp [checkCategories]
  | cons c rest ih =>
    cases hw : rowGet row (walkingCol c) with
    | none => simp [checkCategories, hw]
    | some v =>
      cases hct : c.calculate_transit with
      | false => simp [checkCategories, hw, hct, ih]
      | true =>
        cases ht : rowGet row (transitCol c) with
        | none => simp [checkCategories, hw, hct, ht]
        | some w => simp [checkCategories, hw, hct, ht, ih]

/-- C1: the completion classifier returns `completed` iff the two
distance-to-work fields are present and, for every configured category, the
walking-time field is present and (when `calculate_transit` is configured)
the transit-time field is present; in every other case it returns
`incomplete`. -/
theorem completion_status_characterisation (row : Row) (cats : List PlaceCategory) :
    (check_property_completion_status row cats = statusCompleted ↔
      ((rowGet row colDistanceWork).isSome = true ∧ (rowGet row colTransitWork).isSome = true ∧
        ∀ c ∈ cats, (rowGet row (walkingCol c)).isSome = true ∧
          (c.calculate_transit = true → (rowGet row (transitCol c)).isSome = true))) ∧
    (check_property_completion_status row cats ≠ statusCompleted →
      check_property_completion_status row cats = statusIncomplete) := by
  constructor
  · cases hd : rowGet row colDistanceWork with
    | none => simp [check_property_completion_status, hd, statusCompleted, statusIncomplete]
    | some v =>
      cases ht : rowGet row colTransitWork with
      | none => simp [check_property_completion_status, hd, ht, statusCompleted, statusIncomplete]
      | some w =>
        by_cases hc : checkCategories row cats = true
        · simp [check_property_completion_status, hd, ht, hc]
          exact (checkCategories_iff row cats).mp hc
        · have hfalse : check_property_completion_status row cats = statusIncomplete := by
            simp [check_property_completion_status, hd, ht, hc]
          rw [hfalse]
          constructor
          · intro h; exact absurd h (by decide)
          · rintro ⟨-, -, hall⟩; exact absurd ((checkCategories_iff row cats).mpr hall) hc
  · intro h
    unfold check_property_completion_status at *
    by_cases h1 : ((rowGet row colDistanceWork).isNone || (rowGet row colTransitWork).isNone) = true
    · simp [h1]
    · simp only [h1] at *
      by_cases h2 : checkCategories row cats = true
      · simp [h2] at h
      · simp [h2]

/-- Witness for C1 at a concrete enriched row and category list. -/
theorem completion_status_characterisation_witness :
    check_property_completion_status rowC1 [catEVO, catMA] = statusCompleted :=
  (completion_status_characterisation rowC1 [catEVO, catMA]).1.mpr (by decide)

theorem status_ne_completed (row : Row) (cats : List PlaceCategory)
    (h : check_property_completion_status row cats ≠ statusCompleted) :
    check_property_completion_status row cats = statusIncomplete := by
  unfold check_property_completion_status at *
  by_cases h1 : ((rowGet row colDistanceWork).isNone || (rowGet row colTransitWork).isNone) = true
  · rw [if_pos h1]
  · rw [if_neg h1] at *
    by_cases h2 : checkCategories row cats = true
    · rw [if_pos h2] at h; exact absurd rfl h
    · rw [if_neg h2]

/-- C10: the completion classifier is total — it always returns `completed`
or `incomplete` (it cannot raise: the embedding is total and the source wraps
the body in `try`/`except` returning `incomplete`), and a row missing any
required field is classified `incomplete`. -/
theorem completion_status_total (row : Row) (cats : List PlaceCategory) :
    (check_property_completion_status row cats = statusCompleted ∨
      check_property_completion_status row cats = statusIncomplete) ∧
    ((rowGet row colDistanceWork = none ∨ rowGet row colTransitWork = none ∨
        ∃ c ∈ cats, rowGet row (walkingCol c) = none ∨
          (c.calculate_transit = true ∧ rowGet row (transitCol c) = none)) →
      check_property_completion_status row cats = statusIncomplete) := by
  constructor
  · by_cases h : check_property_completion_status row cats = statusCompleted
    · exact Or.inl h
    · exact Or.inr (status_ne_completed row cats h)
  · intro h
    rcases h with h | h | ⟨c, hc, h⟩
    · simp [check_property_completion_status, h]
    · simp [check_property_completion_status, h]
    · unfold check_property_completion_status
      by_cases h1 : ((rowGet row colDistanceWork).isNone || (rowGet row colTransitWork).isNone) = true
      · rw [if_pos h1]
      · rw [if_neg h1]
        have h2 : checkCategories row cats ≠ true := by
          intro h2
          have hfields := (checkCategories_iff row cats).mp h2 c hc
          rcases h with hwalk | ⟨hcalc, htr⟩
          · rw [hwalk] at hfields; exact absurd hfields.1 (by decide)
          · have hsome := hfields.2 hcalc; rw [htr] at hsome; exact absurd hsome (by decide)
        rw [if_neg h2]

/-- Witness for C10 at the empty row, which misses every column. -/
theorem completion_status_total_witness :
    check_property_completion_status rowC10 [catEVO] = statusIncomplete :=
  (completion_status_total rowC10 [catEVO]).2 (Or.inl (by decide))

/-- C8: the ambiguity classifier returns true exactly when the address is
empty or `Unknown`, has no comma, matches the vague-place list after
lower-casing and trimming (as a whole or as its pre-comma segment), or is a
single token; in particular `Oslo` and `Ullevål` are ambiguous and
`Storgata 5, Oslo` is not. -/
theorem ambiguity_characterisation :
    (∀ a : List Char, is_ambiguous_address a = true ↔
      (a = [] ∨ a = ("Unknown").toList ∨ containsSeq ((",").toList) a = false ∨
        inVagueList (pyStrip (pyLower a)) = true ∨
        (pyWords (pyStrip (pyLower a))).length ≤ 1 ∨
        inVagueList (pyLower (pyStrip (upToFirst ((",").toList) a))) = true)) ∧
    is_ambiguous_address (("Oslo").toList) = true ∧
    is_ambiguous_address (("Storgata 5, Oslo").toList) = false ∧
    is_ambiguous_address (("Ullevål").toList) = true := by
  refine ⟨?_, by decide, by decide, by decide⟩
  intro a
  unfold is_ambiguous_address
  split_ifs with h1 h2 h3 h4 h5 <;> simp_all <;> tauto

/-- C2 counterexample: an incomplete row with transit time present but
distance missing is selected for a distance computation, so selection is not
equivalent to `transit_time` being null. -/
theorem distance_selection_counterexample :
    selectedForDistanceCall rowC2ce [] [] = true ∧
    rowGet rowC2ce colTransitWork = some (Val.vnum 30) := by
  constructor
  · decide
  · decide

/-- C2 (amended): a merged-store row is selected for a distance-matrix
computation iff it is classified incomplete, its finnkode is not in the
too-far skip set, and its distance or transit-to-work cell is missing; in
particular an incomplete row whose distance fields are both populated
triggers no distance API call. -/
theorem distance_selection_characterisation (r : Row) (cats : List PlaceCategory)
    (tooFar : List (List Char)) :
    (selectedForDistanceCall r cats tooFar = true ↔
      (check_property_completion_status r cats = statusIncomplete ∧
        (∀ k, kodeOfRow r = some k → tooFar.contains k = false) ∧
        ((rowGet r colDistanceWork).isNone = true ∨ (rowGet r colTransitWork).isNone = true))) ∧
    (check_property_completion_status r cats = statusIncomplete →
      (rowGet r colDistanceWork).isSome = true → (rowGet r colTransitWork).isSome = true →
      selectedForDistanceCall r cats tooFar = false) := by
  constructor
  · by_cases hst : check_property_completion_status r cats = statusCompleted
    · rw [selectedForDistanceCall, if_pos hst]
      constructor
      · intro h; exact absurd h (by decide)
      · rintro ⟨hinc, -, -⟩; rw [hst] at hinc; exact absurd hinc (by decide)
    · have hinc := status_ne_completed r cats hst
      rw [selectedForDistanceCall, if_neg hst]
      cases hk : kodeOfRow r with
      | none => simp [hk, hinc]
      | some k =>
        by_cases htf : tooFar.contains k = true
        · simp [hk, htf, hinc]
        · simp [hk, hinc, eq_false_of_ne_true htf]
  · intro hinc hd ht
    have hne : ¬ check_property_completion_status r cats = statusCompleted := by
      rw [hinc]; decide
    rw [selectedForDistanceCall, if_neg hne]
    by_cases hm : (match kodeOfRow r with
                   | some k => tooFar.contains k
                   | none => false) = true
    · rw [if_pos hm]
    · rw [if_neg hm]
      obtain ⟨v, hv⟩ := Option.isSome_iff_exists.mp hd
      obtain ⟨w, hw⟩ := Option.isSome_iff_exists.mp ht
      simp [hv, hw]

/-- Witness for C2's amended statement: an incomplete row with populated
distance fields is not selected. -/
theorem distance_selection_characterisation_witness :
    check_property_completion_status rowC2w [catMA] = statusIncomplete ∧
    selectedForDistanceCall rowC2w [catMA] [] = false :=
  ⟨by decide,
    (distance_selection_characterisation rowC2w [catMA] []).2 (by decide) (by decide) (by decide)⟩

/-- C4: a persisted row with travel time 70, stored threshold 60 and an
unchanged work location becomes eligible for place lookup when the threshold
is raised to 75, despite never having been classified completed. -/
theorem threshold_relaxation_requalification (r : Row) (cl cg wl wg : ℚ)
    (cats : List PlaceCategory) (h70 : getNum r colTransitWork = some 70)
    (h60 : getNum r colMaxTransit = some 60)
    (hwl : getNum r colWorkLat = some wl) (hwg : getNum r colWorkLng = some wg)
    (hdl : |wl - cl| < 1/1000) (hdg : |wg - cg| < 1/1000)
    (hst : check_property_completion_status r cats = statusIncomplete) :
    placesEligible r 75 cl cg cats = true := by
  have hpass : passesTravelTimeFilter r 75 = true := by
    rw [passesTravelTimeFilter, h70]
    simp [show ((70:ℚ) ≤ 75) from by norm_num]
  rw [placesEligible, hpass, Bool.true_or]

/-- Witness for C4 at a concrete persisted row. -/
theorem threshold_relaxation_requalification_witness :
    placesEligible rowC4 75 59 10 [] = true :=
  threshold_relaxation_requalification rowC4 59 10 59 10 [] (by decide) (by decide)
    (by decide) (by decide) (by norm_num) (by norm_num) (by decide)

theorem retryLoop_error_stop {α : Type} (f : ℕ → Except String α) (fuel a : ℕ) (e : String)
    (hf : f a = Except.error e) (hh : (handle_api_error e a maxRetries).should_retry = false) :
    retryLoop f (fuel + 1) a = none := by
  simp [retryLoop, hf, hh]

/-- C9: inside the retrying wrapper, a rate-limit error (429/quota/
over-query-limit) retries with backoff `5 * 2 ^ attempt` and clears the
rate-limit window tracking; a transient 5xx error below the retry cap retries
with backoff `2 ^ attempt`; any other error is not retried and the wrapper
returns the failure sentinel `none`. -/
theorem api_retry_policy (e : String) (a : ℕ) {α : Type} (f : ℕ → Except String α) :
    (isRateLimitError e = true →
      handle_api_error e a maxRetries = ⟨true, 2 ^ a * 5, true⟩ ∧
      (∀ fuel, f a = Except.error e → retryLoop f (fuel + 1) a = retryLoop f fuel (a + 1))) ∧
    (isRateLimitError e = false → isTemporaryError e = true → a < maxRetries →
      handle_api_error e a maxRetries = ⟨true, 2 ^ a, false⟩ ∧
      (∀ fuel, f a = Except.error e → retryLoop f (fuel + 1) a = retryLoop f fuel (a + 1))) ∧
    (isRateLimitError e = false → isTemporaryError e = false →
      handle_api_error e a maxRetries = ⟨false, 0, false⟩ ∧
      (f 0 = Except.error e → make_api_call_with_retry f = none)) := by
  refine ⟨?_, ?_, ?_⟩
  · intro hr
    have hh : handle_api_error e a maxRetries = ⟨true, 2 ^ a * 5, true⟩ := by
      rw [handle_api_error, if_pos hr]
    exact ⟨hh, fun fuel hf => by simp [retryLoop, hf, hh]⟩
  · intro hr ht ha
    have hh : handle_api_error e a maxRetries = ⟨true, 2 ^ a, false⟩ := by
      rw [handle_api_error, if_neg (by simp [hr]), if_pos (by simp [ht, ha])]
    exact ⟨hh, fun fuel hf => by simp [retryLoop, hf, hh]⟩
  · intro hr ht
    have hh : handle_api_error e a maxRetries = ⟨false, 0, false⟩ := by
      rw [handle_api_error, if_neg (by simp [hr]), if_neg (by simp [ht])]
    refine ⟨hh, fun hf => ?_⟩
    have hh0 : handle_api_error e 0 maxRetries = ⟨false, 0, false⟩ := by
      rw [handle_api_error, if_neg (by simp [hr]), if_neg (by simp [ht])]
    calc make_api_call_with_retry f = retryLoop f (maxRetries + 1) 0 := rfl
      _ = none := retryLoop_error_stop f maxRetries 0 e hf (by rw [hh0])

/-- Witness for C9 at concrete error strings of each class. -/
theorem api_retry_policy_witness :
    handle_api_error ("HTTP 429 Too Many Requests") 1 maxRetries = ⟨true, 2 ^ 1 * 5, true⟩ ∧
    handle_api_error ("503 Service Unavailable") 1 maxRetries = ⟨true, 2 ^ 1, false⟩ ∧
    make_api_call_with_retry (fun _ => Except.error ("REQUEST_DENIED") : ℕ → Except String ℕ)
      = none :=
  ⟨((api_retry_policy ("HTTP 429 Too Many Requests") 1
      (fun _ => Except.ok 0 : ℕ → Except String ℕ)).1 (by decide)).1,
   ((api_retry_policy ("503 Service Unavailable") 1
      (fun _ => Except.ok 0 : ℕ → Except String ℕ)).2.1 (by decide) (by decide) (by decide)).1,
   ((api_retry_policy ("REQUEST_DENIED") 0
      (fun _ => Except.error ("REQUEST_DENIED") : ℕ → Except String ℕ)).2.2 (by decide)
      (by decide)).2 rfl⟩

theorem contains_iff_mem (l : List (List Char)) (k : List Char) :
    l.contains k = true ↔ k ∈ l := by
  constructor
  · exact fun h => List.mem_of_elem_eq_true h
  · exact fun h => List.elem_eq_true_of_mem h

/-- C3 counterexample: a row with geocode status `Success` but missing
coordinates, in no skip set and with no persisted coordinate entry, is still
selected for geocoding — so "lacks a success geocode status AND not in the
skip set" does not characterise the geocoding need. -/
theorem geocoding_need_counterexample :
    needsGeocoding rowC3ce [] [] = true ∧
    rowGet rowC3ce colGeocodeStatus = some (Val.vstr statusSuccess) := by
  constructor
  · decide
  · decide

/-- C3 (amended): a persisted property whose stored travel time exceeds the
current threshold is in the too-far skip set iff its stored work location
matches the current one within 0.001 degrees per coordinate; rows in the skip
set are selected for neither geocoding nor distance calls; and a listing
needs geocoding iff it is not in the skip set, has no entry in the persisted
coordinates store, and does not itself carry valid coordinates (present
latitude/longitude with geocode status `Success`). -/
theorem too_far_skipset_characterisation :
    (∀ (persisted : List Row) (cl cg mt : ℚ) (r : Row) (k : List Char) (t : ℚ),
      r ∈ persisted → kodeOfRow r = some k →
      (∀ r2 ∈ persisted, kodeOfRow r2 = some k → r2 = r) →
      getNum r colTransitWork = some t → mt < t →
      (k ∈ load_too_far_properties persisted cl cg mt ↔
        work_location_matches (getNum r colWorkLat) (getNum r colWorkLng) cl cg (1/1000)
          = true)) ∧
    (∀ (r : Row) (tooFar existing : List (List Char)) (k : List Char),
      kodeOfRow r = some k → k ∈ tooFar → needsGeocoding r tooFar existing = false) ∧
    (∀ (r : Row) (cats : List PlaceCategory) (tooFar : List (List Char)) (k : List Char),
      kodeOfRow r = some k → k ∈ tooFar → selectedForDistanceCall r cats tooFar = false) ∧
    (∀ (r : Row) (tooFar existing : List (List Char)),
      needsGeocoding r tooFar existing = true ↔
        ((∀ k, kodeOfRow r = some k →
            (tooFar.contains k = false ∧ existing.contains k = false)) ∧
          has_valid_coordinates r = false)) := by
  refine ⟨?_, ?_, ?_, ?_⟩
  · intro persisted cl cg mt r k t hr hk huniq ht hlt
    have hne : decide (t ≤ mt) = false := by simp [not_le.mpr hlt]
    constructor
    · intro hmem
      obtain ⟨r2, hr2mem, hr2⟩ := List.mem_filterMap.mp hmem
      by_cases htfr : rowTooFar r2 cl cg mt = true
      · rw [if_pos htfr] at hr2
        have heq : r2 = r := huniq r2 hr2mem hr2
        subst heq
        simp only [rowTooFar, hk, ht, hne] at htfr
        simpa using htfr
      · rw [if_neg htfr] at hr2; exact absurd hr2 (by simp)
    · intro hmatch
      refine List.mem_filterMap.mpr ⟨r, hr, ?_⟩
      have htfr : rowTooFar r cl cg mt = true := by
        simp only [rowTooFar, hk, ht, hne]
        simpa using hmatch
      rw [if_pos htfr, hk]
  · intro r tooFar existing k hk hmem
    simp only [needsGeocoding, hk]
    rw [if_pos ((contains_iff_mem tooFar k).mpr hmem)]
  · intro r cats tooFar k hk hmem
    unfold selectedForDistanceCall
    by_cases hst : check_property_completion_status r cats = statusCompleted
    · rw [if_pos hst]
    · rw [if_neg hst]
      have hmk : (match kodeOfRow r with
                  | some k2 => tooFar.contains k2
                  | none => false) = true := by
        rw [hk]; exact (contains_iff_mem tooFar k).mpr hmem
      rw [if_pos hmk]
  · intro r tooFar existing
    cases hk : kodeOfRow r with
    | none => simp [needsGeocoding, hk]
    | some k =>
      simp only [needsGeocoding, hk]
      by_cases h1 : tooFar.contains k = true
      · rw [if_pos h1]
        constructor
        · intro h; exact absurd h (by decide)
        · rintro ⟨hall, -⟩
          have hcontra := (hall k rfl).1
          rw [h1] at hcontra
          exact absurd hcontra (by decide)
      · rw [if_neg h1]
        by_cases h2 : existing.contains k = true
        · rw [if_pos h2]
          constructor
          · intro h; exact absurd h (by decide)
          · rintro ⟨hall, -⟩
            have hcontra := (hall k rfl).2
            rw [h2] at hcontra
            exact absurd hcontra (by decide)
        · rw [if_neg h2]
          constructor
          · intro h
            refine ⟨fun k2 hk2 => ?_, ?_⟩
            · cases hk2
              exact ⟨eq_false_of_ne_true h1, eq_false_of_ne_true h2⟩
            · cases hv : has_valid_coordinates r
              · rfl
              · rw [hv] at h; exact absurd h (by decide)
          · rintro ⟨-, hv⟩
            rw [hv]; rfl

/-- Witness for C3's amended statement at a persisted row with travel time 70
against threshold 60 and a matching work location. -/
theorem too_far_skipset_characterisation_witness :
    getNum rowC3w colTransitWork = some 70 ∧
    (("345679").toList ∈ load_too_far_properties [rowC3w] 59 10 60) :=
  ⟨by decide,
    ((too_far_skipset_characterisation.1 [rowC3w] 59 10 60 rowC3w (("345679").toList) 70
        (by simp) (by decide) (by decide) (by decide) (by norm_num)).mpr
      (by
        have h1 : getNum rowC3w colWorkLat = some 59 := by decide
        have h2 : getNum rowC3w colWorkLng = some 10 := by decide
        rw [h1, h2]
        simp only [work_location_matches, Bool.and_eq_true, decide_eq_true_eq]
        norm_num))⟩

theorem head_ne_of_digits {k : List Char} (hk : ∀ c ∈ k, c.isDigit = true) (pat : List Char)
    (x : Char) (hx : pat.head? = some x) (hxd : x.isDigit = false) :
    ∀ c ∈ k, pat.head? ≠ some c := by
  intro c hc heq
  rw [hx] at heq
  have hxc : x = c := by injection heq
  rw [hxc, hk c hc] at hxd
  exact absurd hxd (by decide)

theorem digit_qa {k : List Char} (hk : ∀ c ∈ k, c.isDigit = true) :
    ∀ c ∈ k, (c == '?') = false ∧ (c == '&') = false := by
  intro c hc
  constructor
  · refine beq_eq_false_iff_ne.mpr fun h => ?_
    have hcd := hk c hc; rw [h] at hcd; exact absurd hcd (by decide)
  · refine beq_eq_false_iff_ne.mpr fun h => ?_
    have hcd := hk c hc; rw [h] at hcd; exact absurd hcd (by decide)

theorem digit_not_percent {k : List Char} (hk : ∀ c ∈ k, c.isDigit = true) :
    ∀ c ∈ k, (c == '%') = false := by
  intro c hc
  refine beq_eq_false_iff_ne.mpr fun h => ?_
  have hcd := hk c hc; rw [h] at hcd; exact absurd hcd (by decide)

theorem takeWhile_all (p : Char → Bool) (l : List Char) (h : ∀ c ∈ l, p c = true) :
    l.takeWhile p = l := by
  induction l with
  | nil => rfl
  | cons c t ih =>
    rw [List.takeWhile_cons_of_pos (h c (by simp)), ih (fun c2 hc2 => h c2 (by simp [hc2]))]

theorem takeWhile_digits_append {k : List Char} (rest : List Char)
    (hk : ∀ c ∈ k, c.isDigit = true)
    (hrest : ∀ c, rest.head? = some c → c.isDigit = false) :
    (k ++ rest).takeWhile Char.isDigit = k := by
  induction k with
  | nil =>
    cases rest with
    | nil => rfl
    | cons c t =>
      simp only [List.nil_append]
      rw [List.takeWhile_cons_of_neg (by simp [hrest c rfl])]
  | cons c t ih =>
    simp only [List.cons_append]
    rw [List.takeWhile_cons_of_pos (hk c (by simp)), ih (fun c2 hc2 => hk c2 (by simp [hc2]))]

theorem containsSeq_skip_all (pat l rest : List Char) (hpat : pat ≠ []) :
    (∀ c ∈ l, pat.head? ≠ some c) → containsSeq pat (l ++ rest) = containsSeq pat rest := by
  obtain ⟨p0, ps, rfl⟩ := List.exists_cons_of_ne_nil hpat
  induction l with
  | nil => intro _; rfl
  | cons c t ih =>
    intro h
    have hp0c : (p0 == c) = false :=
      beq_eq_false_iff_ne.mpr (fun he => h c (by simp) (by rw [he]; rfl))
    have hpre : isPrefixSeq (p0 :: ps) (c :: (t ++ rest)) = false := by
      show (p0 == c && isPrefixSeq ps (t ++ rest)) = false
      rw [hp0c, Bool.false_and]
    show (isPrefixSeq (p0 :: ps) (c :: (t ++ rest)) || containsSeq (p0 :: ps) (t ++ rest))
        = containsSeq (p0 :: ps) rest
    rw [hpre, Bool.false_or]
    exact ih (fun c2 hc2 => h c2 (by simp [hc2]))

theorem containsSeq_all_ne (pat l : List Char) (hpat : pat ≠ []) :
    (∀ c ∈ l, pat.head? ≠ some c) → containsSeq pat l = false := by
  obtain ⟨p0, ps, rfl⟩ := List.exists_cons_of_ne_nil hpat
  induction l with
  | nil => intro _; rfl
  | cons c t ih =>
    intro h
    have hp0c : (p0 == c) = false :=
      beq_eq_false_iff_ne.mpr (fun he => h c (by simp) (by rw [he]; rfl))
    have hpre : isPrefixSeq (p0 :: ps) (c :: t) = false := by
      show (p0 == c && isPrefixSeq ps t) = false
      rw [hp0c, Bool.false_and]
    show (isPrefixSeq (p0 :: ps) (c :: t) || containsSeq (p0 :: ps) t) = false
    rw [hpre, Bool.false_or]
    exact ih (fun c2 hc2 => h c2 (by simp [hc2]))

theorem upToFirst_skip_all (sep l rest : List Char) (hsep : sep ≠ []) :
    (∀ c ∈ l, sep.head? ≠ some c) → upToFirst sep (l ++ rest) = l ++ upToFirst sep rest := by
  obtain ⟨p0, ps, rfl⟩ := List.exists_cons_of_ne_nil hsep
  induction l with
  | nil => intro _; rfl
  | cons c t ih =>
    intro h
    have hp0c : (p0 == c) = false :=
      beq_eq_false_iff_ne.mpr (fun he => h c (by simp) (by rw [he]; rfl))
    have hpre : isPrefixSeq (p0 :: ps) (c :: (t ++ rest)) = false := by
      show (p0 == c && isPrefixSeq ps (t ++ rest)) = false
      rw [hp0c, Bool.false_and]
    show (if isPrefixSeq (p0 :: ps) (c :: (t ++ rest)) = true then []
          else c :: upToFirst (p0 :: ps) (t ++ rest)) = (c :: t) ++ upToFirst (p0 :: ps) rest
    rw [hpre]
    simp only [Bool.false_eq_true, if_false, List.cons_append]
    rw [ih (fun c2 hc2 => h c2 (by simp [hc2]))]

theorem upToFirst_all_ne (sep l : List Char) (hsep : sep ≠ []) :
    (∀ c ∈ l, sep.head? ≠ some c) → upToFirst sep l = l := by
  obtain ⟨p0, ps, rfl⟩ := List.exists_cons_of_ne_nil hsep
  induction l with
  | nil => intro _; rfl
  | cons c t ih =>
    intro h
    have hp0c : (p0 == c) = false :=
      beq_eq_false_iff_ne.mpr (fun he => h c (by simp) (by rw [he]; rfl))
    have hpre : isPrefixSeq (p0 :: ps) (c :: t) = false := by
      show (p0 == c && isPrefixSeq ps t) = false
      rw [hp0c, Bool.false_and]
    show (if isPrefixSeq (p0 :: ps) (c :: t) = true then []
          else c :: upToFirst (p0 :: ps) t) = c :: t
    rw [hpre]
    simp only [Bool.false_eq_true, if_false]
    rw [ih (fun c2 hc2 => h c2 (by simp [hc2]))]

theorem searchParam_skip_all (l rest : List Char)
    (h : ∀ c ∈ l, (c == '?') = false ∧ (c == '&') = false) :
    searchParam (l ++ rest) = searchParam rest := by
  induction l with
  | nil => rfl
  | cons c t ih =>
    have h1 := (h c (by simp)).1
    have h2 := (h c (by simp)).2
    show (if ((c == '?' || c == '&') && isPrefixSeq finnkodeParamPat (t ++ rest)
          && !(((t ++ rest).drop finnkodeParamPat.length).takeWhile Char.isDigit).isEmpty) = true
        then some (((t ++ rest).drop finnkodeParamPat.length).takeWhile Char.isDigit)
        else searchParam (t ++ rest)) = searchParam rest
    rw [h1, h2]
    simp only [Bool.or_self, Bool.false_and, Bool.false_eq_true, if_false]
    exact ih (fun c2 hc2 => h c2 (by simp [hc2]))

theorem searchParam_none_all (l : List Char)
    (h : ∀ c ∈ l, (c == '?') = false ∧ (c == '&') = false) :
    searchParam l = none := by
  induction l with
  | nil => rfl
  | cons c t ih =>
    have h1 := (h c (by simp)).1
    have h2 := (h c (by simp)).2
    show (if ((c == '?' || c == '&') && isPrefixSeq finnkodeParamPat t
          && !((t.drop finnkodeParamPat.length).takeWhile Char.isDigit).isEmpty) = true
        then some ((t.drop finnkodeParamPat.length).takeWhile Char.isDigit)
        else searchParam t) = none
    rw [h1, h2]
    simp only [Bool.or_self, Bool.false_and, Bool.false_eq_true, if_false]
    exact ih (fun c2 hc2 => h c2 (by simp [hc2]))

theorem unquote_cons_ne (c : Char) (t : List Char) (h : ¬ c = '%') :
    unquote (c :: t) = c :: unquote t := by
  rw [unquote.eq_def]
  split <;> simp_all

theorem unquote_skip_all (l rest : List Char) (h : ∀ c ∈ l, (c == '%') = false) :
    unquote (l ++ rest) = l ++ unquote rest := by
  induction l with
  | nil => rfl
  | cons c t ih =>
    have h1 : ¬ c = '%' := beq_eq_false_iff_ne.mp (h c (by simp))
    simp only [List.cons_append]
    rw [unquote_cons_ne c (t ++ rest) h1, ih (fun c2 hc2 => h c2 (by simp [hc2]))]

theorem searchParam_hit (u : List Char) (hne : (u.takeWhile Char.isDigit).isEmpty = false) :
    searchParam ('?' :: (finnkodeParamPat ++ u)) = some (u.takeWhile Char.isDigit) := by
  have hstep : searchParam ('?' :: (finnkodeParamPat ++ u)) =
      if (!(u.takeWhile Char.isDigit).isEmpty) = true then some (u.takeWhile Char.isDigit)
      else searchParam (finnkodeParamPat ++ u) := rfl
  rw [hstep, if_pos (by rw [hne]; rfl)]

theorem searchShort_hit (t : List Char)
    (h6 : 6 ≤ (t.takeWhile Char.isDigit).length)
    (h12 : (t.takeWhile Char.isDigit).length ≤ 12)
    (hend : shortUrlEndOk (t.drop (t.takeWhile Char.isDigit).length) = true) :
    searchShort (shortUrlPat ++ t) = some (t.takeWhile Char.isDigit) := by
  have hstep : searchShort (shortUrlPat ++ t) =
      if ((decide (6 ≤ (t.takeWhile Char.isDigit).length) &&
          decide ((t.takeWhile Char.isDigit).length ≤ 12)) &&
          shortUrlEndOk (t.drop (t.takeWhile Char.isDigit).length)) = true then
        some (t.takeWhile Char.isDigit)
      else searchShort ((("inn.no/").toList) ++ t) := rfl
  rw [hstep, if_pos (by rw [decide_eq_true h6, decide_eq_true h12, hend]; rfl)]

theorem isEmpty_false_of_ne_nil {k : List Char} (hne : k ≠ []) : k.isEmpty = false := by
  cases k with
  | nil => exact absurd rfl hne
  | cons a t => rfl

theorem extract_direct {k : List Char} (hk : ∀ c ∈ k, c.isDigit = true) (hne : k ≠ []) :
    extract_finnkode (urlShapeDirect k) = some k := by
  have htw : k.takeWhile Char.isDigit = k := takeWhile_all Char.isDigit k hk
  have hct : containsSeq trackingMarker (urlShapeDirect k) = false := by
    have h1 : containsSeq trackingMarker (urlShapeDirect k) = containsSeq trackingMarker k := rfl
    rw [h1]
    exact containsSeq_all_ne trackingMarker k (by decide)
      (head_ne_of_digits hk trackingMarker 'c' (by decide) (by decide))
  have hd0 : decode_finn_tracking_url (urlShapeDirect k) = urlShapeDirect k := by
    unfold decode_finn_tracking_url
    rw [hct]
    simp
  have hdd : containsSeq doubledDomainPat (urlShapeDirect k) = false := by
    have h1 : containsSeq doubledDomainPat (urlShapeDirect k)
        = containsSeq doubledDomainPat k := rfl
    rw [h1]
    exact containsSeq_all_ne doubledDomainPat k (by decide)
      (head_ne_of_digits hk doubledDomainPat 'w' (by decide) (by decide))
  have hsp : searchParam (urlShapeDirect k) = some k := by
    have h1 : searchParam (urlShapeDirect k) = searchParam ('?' :: (finnkodeParamPat ++ k)) := rfl
    rw [h1, searchParam_hit k (by rw [htw]; exact isEmpty_false_of_ne_nil hne), htw]
  simp only [extract_finnkode]
  rw [hd0, hdd]
  simp only [Bool.false_eq_true, if_false]
  rw [hsp]

theorem extract_short {k : List Char} (hk : ∀ c ∈ k, c.isDigit = true)
    (h6 : 6 ≤ k.length) (h12 : k.length ≤ 12) :
    extract_finnkode (urlShapeShort k) = some k := by
  have htw : k.takeWhile Char.isDigit = k := takeWhile_all Char.isDigit k hk
  have hct : containsSeq trackingMarker (urlShapeShort k) = false := by
    have h1 : containsSeq trackingMarker (urlShapeShort k) = containsSeq trackingMarker k := rfl
    rw [h1]
    exact containsSeq_all_ne trackingMarker k (by decide)
      (head_ne_of_digits hk trackingMarker 'c' (by decide) (by decide))
  have hd0 : decode_finn_tracking_url (urlShapeShort k) = urlShapeShort k := by
    unfold decode_finn_tracking_url
    rw [hct]
    simp
  have hdd : containsSeq doubledDomainPat (urlShapeShort k) = false := by
    have h1 : containsSeq doubledDomainPat (urlShapeShort k)
        = containsSeq doubledDomainPat k := rfl
    rw [h1]
    exact containsSeq_all_ne doubledDomainPat k (by decide)
      (head_ne_of_digits hk doubledDomainPat 'w' (by decide) (by decide))
  have hspn : searchParam (urlShapeShort k) = none := by
    have h1 : searchParam (urlShapeShort k) = searchParam k := rfl
    rw [h1]
    exact searchParam_none_all k (digit_qa hk)
  have hss : searchShort (urlShapeShort k) = some k := by
    have h1 : searchShort (urlShapeShort k) = searchShort (shortUrlPat ++ k) := rfl
    have ha : 6 ≤ (k.takeWhile Char.isDigit).length := by rw [htw]; exact h6
    have hb : (k.takeWhile Char.isDigit).length ≤ 12 := by rw [htw]; exact h12
    have hc : shortUrlEndOk (k.drop (k.takeWhile Char.isDigit).length) = true := by
      rw [htw, List.drop_length]; rfl
    rw [h1, searchShort_hit k ha hb hc, htw]
  simp only [extract_finnkode]
  rw [hd0, hdd]
  simp only [Bool.false_eq_true, if_false]
  rw [hspn, hss]

theorem extract_tracking {k : List Char} (hk : ∀ c ∈ k, c.isDigit = true)
    (h6 : 6 ≤ k.length) (h12 : k.length ≤ 12) :
    extract_finnkode (urlShapeTracking k) = some k := by
  have hct : containsSeq trackingMarker (urlShapeTracking k) = true := rfl
  have hafter : afterFirst cl0Sep (urlShapeTracking k) =
      ("https:%2F%2Fwww.finn.no%2F").toList ++ (k ++ ("%3Fx=1/2/0000").toList) := rfl
  have hup1 : upToFirst cl0Sep
        (("https:%2F%2Fwww.finn.no%2F").toList ++ (k ++ ("%3Fx=1/2/0000").toList)) =
      ("https:%2F%2Fwww.finn.no%2F").toList ++ upToFirst cl0Sep (k ++ ("%3Fx=1/2/0000").toList)
      := rfl
  have hup1k : upToFirst cl0Sep (k ++ ("%3Fx=1/2/0000").toList) =
      k ++ upToFirst cl0Sep (("%3Fx=1/2/0000").toList) :=
    upToFirst_skip_all cl0Sep k (("%3Fx=1/2/0000").toList) (by decide)
      (head_ne_of_digits hk cl0Sep 'C' (by decide) (by decide))
  have hup1t : upToFirst cl0Sep (("%3Fx=1/2/0000").toList) = ("%3Fx=1/2/0000").toList := by
    decide
  have hs1 : upToFirst slashSep
        (("https:%2F%2Fwww.finn.no%2F").toList ++ (k ++ ("%3Fx=1/2/0000").toList)) =
      ("https:%2F%2Fwww.finn.no%2F").toList ++ upToFirst slashSep (k ++ ("%3Fx=1/2/0000").toList)
      := rfl
  have hs1k : upToFirst slashSep (k ++ ("%3Fx=1/2/0000").toList) =
      k ++ upToFirst slashSep (("%3Fx=1/2/0000").toList) :=
    upToFirst_skip_all slashSep k (("%3Fx=1/2/0000").toList) (by decide)
      (head_ne_of_digits hk slashSep '/' (by decide) (by decide))
  have hs1t : upToFirst slashSep (("%3Fx=1/2/0000").toList) = ("%3Fx=1").toList := by decide
  have hq1 : unquote (("https:%2F%2Fwww.finn.no%2F").toList ++ (k ++ ("%3Fx=1").toList)) =
      ("https://www.finn.no/").toList ++ unquote (k ++ ("%3Fx=1").toList) := rfl
  have hq1k : unquote (k ++ ("%3Fx=1").toList) = k ++ unquote (("%3Fx=1").toList) :=
    unquote_skip_all k (("%3Fx=1").toList) (digit_not_percent hk)
  have hq1t : unquote (("%3Fx=1").toList) = ("?x=1").toList := by decide
  have hdec : decode_finn_tracking_url (urlShapeTracking k) =
      ("https://www.finn.no/").toList ++ (k ++ ("?x=1").toList) := by
    unfold decode_finn_tracking_url
    rw [hct, if_pos rfl, hafter, hup1, hup1k, hup1t, hs1, hs1k, hs1t, hq1, hq1k, hq1t]
  have hdd : containsSeq doubledDomainPat
      (("https://www.finn.no/").toList ++ (k ++ ("?x=1").toList)) = false := by
    have h1 : containsSeq doubledDomainPat
          (("https://www.finn.no/").toList ++ (k ++ ("?x=1").toList)) =
        containsSeq doubledDomainPat (k ++ ("?x=1").toList) := rfl
    rw [h1, containsSeq_skip_all doubledDomainPat k (("?x=1").toList) (by decide)
      (head_ne_of_digits hk doubledDomainPat 'w' (by decide) (by decide))]
    decide
  have hspn : searchParam (("https://www.finn.no/").toList ++ (k ++ ("?x=1").toList)) = none := by
    have h1 : searchParam (("https://www.finn.no/").toList ++ (k ++ ("?x=1").toList)) =
        searchParam (k ++ ("?x=1").toList) := rfl
    rw [h1, searchParam_skip_all k (("?x=1").toList) (digit_qa hk)]
    decide
  have htwa : (k ++ ("?x=1").toList).takeWhile Char.isDigit = k := by
    refine takeWhile_digits_append (("?x=1").toList) hk ?_
    intro c hc
    have hqc : '?' = c := by injection hc
    rw [← hqc]; decide
  have hss : searchShort (("https://www.finn.no/").toList ++ (k ++ ("?x=1").toList)) = some k := by
    have h1 : searchShort (("https://www.finn.no/").toList ++ (k ++ ("?x=1").toList)) =
        searchShort (shortUrlPat ++ (k ++ ("?x=1").toList)) := rfl
    have ha : 6 ≤ ((k ++ ("?x=1").toList).takeWhile Char.isDigit).length := by
      rw [htwa]; exact h6
    have hb : ((k ++ ("?x=1").toList).takeWhile Char.isDigit).length ≤ 12 := by
      rw [htwa]; exact h12
    have hc : shortUrlEndOk
        ((k ++ ("?x=1").toList).drop ((k ++ ("?x=1").toList).takeWhile Char.isDigit).length)
        = true := by
      rw [htwa, List.drop_left]; rfl
    rw [h1, searchShort_hit (k ++ ("?x=1").toList) ha hb hc, htwa]
  simp only [extract_finnkode]
  rw [hdec, hdd]
  simp only [Bool.false_eq_true, if_false]
  rw [hspn, hss]

theorem extract_malformed {k : List Char} (hk : ∀ c ∈ k, c.isDigit = true)
    (h6 : 6 ≤ k.length) (h12 : k.length ≤ 12) :
    extract_finnkode (urlShapeMalformed k) = some k := by
  have htw : k.takeWhile Char.isDigit = k := takeWhile_all Char.isDigit k hk
  have hct : containsSeq trackingMarker (urlShapeMalformed k) = false := by
    have h1 : containsSeq trackingMarker (urlShapeMalformed k)
        = containsSeq trackingMarker k := rfl
    rw [h1]
    exact containsSeq_all_ne trackingMarker k (by decide)
      (head_ne_of_digits hk trackingMarker 'c' (by decide) (by decide))
  have hd0 : decode_finn_tracking_url (urlShapeMalformed k) = urlShapeMalformed k := by
    unfold decode_finn_tracking_url
    rw [hct]
    simp
  have hdd : containsSeq doubledDomainPat (urlShapeMalformed k) = true := rfl
  have hafter : afterFirst doubledDomainPat (urlShapeMalformed k) =
      ("www.finn.no/").toList ++ k := rfl
  have hup : upToFirst doubledDomainPat (("www.finn.no/").toList ++ k) =
      ("www.finn.no/").toList ++ upToFirst doubledDomainPat k := rfl
  have hupk : upToFirst doubledDomainPat k = k :=
    upToFirst_all_ne doubledDomainPat k (by decide)
      (head_ne_of_digits hk doubledDomainPat 'w' (by decide) (by decide))
  have hspn : searchParam (("https://").toList ++ (("www.finn.no/").toList ++ k)) = none := by
    have h1 : searchParam (("https://").toList ++ (("www.finn.no/").toList ++ k)) =
        searchParam k := rfl
    rw [h1]
    exact searchParam_none_all k (digit_qa hk)
  have hss : searchShort (("https://").toList ++ (("www.finn.no/").toList ++ k)) = some k := by
    have h1 : searchShort (("https://").toList ++ (("www.finn.no/").toList ++ k)) =
        searchShort (shortUrlPat ++ k) := rfl
    have ha : 6 ≤ (k.takeWhile Char.isDigit).length := by rw [htw]; exact h6
    have hb : (k.takeWhile Char.isDigit).length ≤ 12 := by rw [htw]; exact h12
    have hc : shortUrlEndOk (k.drop (k.takeWhile Char.isDigit).length) = true := by
      rw [htw, List.drop_length]; rfl
    rw [h1, searchShort_hit k ha hb hc, htw]
  simp only [extract_finnkode]
  rw [hd0, hdd, if_pos rfl, hafter, hup, hupk, hspn, hss]

/-- C7: for every finnkode (a 6-12 digit string), each of the four supported
URL shapes — direct with query parameter, short numeric path, percent-encoded
tracking redirect, and malformed double prefix — yields that same finnkode;
the tracking URL wrapping `https://www.finn.no/439665457?x=1` yields
`439665457`; and a string with no derivable identifier yields `none` (the
embedding is total, matching the source's catch-all `return None`). -/
theorem identifier_extraction_uniform :
    (∀ k : List Char, (∀ c ∈ k, c.isDigit = true) → 6 ≤ k.length → k.length ≤ 12 →
      (extract_finnkode (urlShapeDirect k) = some k ∧
        extract_finnkode (urlShapeShort k) = some k ∧
        extract_finnkode (urlShapeTracking k) = some k ∧
        extract_finnkode (urlShapeMalformed k) = some k)) ∧
    extract_finnkode
      (("https://click.mailsvc.finn.no/CL0/https:%2F%2Fwww.finn.no%2F439665457%3Fx=1/2/0000").toList)
      = some (("439665457").toList) ∧
    extract_finnkode (("no identifier here").toList) = none := by
  refine ⟨?_, ?_, ?_⟩
  · intro k hk h6 h12
    have hne : k ≠ [] := by
      intro h; rw [h] at h6; exact absurd h6 (by decide)
    exact ⟨extract_direct hk hne, extract_short hk h6 h12,
      extract_tracking hk h6 h12, extract_malformed hk h6 h12⟩
  · decide
  · decide

/-- Witness for C7 at the concrete finnkode `123456`. -/
theorem identifier_extraction_uniform_witness :
    extract_finnkode (urlShapeDirect kC7) = some kC7 ∧
    extract_finnkode (urlShapeShort kC7) = some kC7 ∧
    extract_finnkode (urlShapeTracking kC7) = some kC7 ∧
    extract_finnkode (urlShapeMalformed kC7) = some kC7 :=
  identifier_extraction_uniform.1 kC7 (by decide) (by decide) (by decide)

theorem rowGet_rowSet_cases (r : Row) (cset : String) (v : Val) (cget : String) :
    rowGet (rowSet r cset v) cget = if cset = cget then some v else rowGet r cget := by
  induction r with
  | nil =>
    by_cases h : cset = cget
    · simp [rowSet, rowGet, h]
    · simp [rowSet, rowGet, h]
  | cons p t ih =>
    obtain ⟨c1, v1⟩ := p
    by_cases h1 : c1 = cset
    · subst h1
      simp only [rowSet, if_pos rfl]
      by_cases h2 : c1 = cget
      · subst h2; simp [rowGet]
      · simp [rowGet, h2]
    · simp only [rowSet, if_neg h1]
      by_cases h2 : c1 = cget
      · subst h2
        have h1s : ¬ cset = c1 := fun hh => h1 hh.symm
        simp [rowGet, h1s]
      · simp only [rowGet, if_neg h2]
        rw [ih]

theorem rowGet_rowSet_self (r : Row) (c : String) (v : Val) :
    rowGet (rowSet r c v) c = some v := by
  rw [rowGet_rowSet_cases, if_pos rfl]

theorem rowGet_rowSet_ne {r : Row} {cset cget : String} {v : Val} (h : cset ≠ cget) :
    rowGet (rowSet r cset v) cget = rowGet r cget := by
  rw [rowGet_rowSet_cases, if_neg h]

theorem rowGet_none_iff (r : Row) (c : String) :
    rowGet r c = none ↔ ∀ p ∈ r, p.1 ≠ c := by
  induction r with
  | nil => simp [rowGet]
  | cons p t ih =>
    obtain ⟨c1, v1⟩ := p
    by_cases h : c1 = c
    · simp [rowGet, h]
    · simp [rowGet, h, ih]

theorem mapGet_mapSet_cases {V : Type} (m : List (List Char × V)) (kset : List Char) (v : V)
    (kget : List Char) :
    mapGet (mapSet m kset v) kget = if kset = kget then some v else mapGet m kget := by
  induction m with
  | nil =>
    by_cases h : kset = kget
    · simp [mapSet, mapGet, h]
    · simp [mapSet, mapGet, h]
  | cons p t ih =>
    obtain ⟨k1, v1⟩ := p
    by_cases h1 : k1 = kset
    · subst h1
      simp only [mapSet, if_pos rfl]
      by_cases h2 : k1 = kget
      · subst h2; simp [mapGet]
      · simp [mapGet, h2]
    · simp only [mapSet, if_neg h1]
      by_cases h2 : k1 = kget
      · subst h2
        have h1s : ¬ kset = k1 := fun hh => h1 hh.symm
        simp [mapGet, h1s]
      · simp only [mapGet, if_neg h2]
        rw [ih]

theorem buildMapStep_get {V : Type} (keyf : Row → Option (List Char)) (valf : Row → V)
    (m : List (List Char × V)) (y : Row) (k : List Char) (hy : keyf y ≠ some k) :
    mapGet (match keyf y with
            | some k2 => mapSet m k2 (valf y)
            | none => m) k = mapGet m k := by
  cases hky : keyf y with
  | none => rfl
  | some k2 =>
    have hne : k2 ≠ k := fun h => hy (by rw [hky, h])
    simp only []
    rw [mapGet_mapSet_cases, if_neg hne]

theorem foldl_build_get_none {V : Type} (keyf : Row → Option (List Char)) (valf : Row → V)
    (l : List Row) (k : List Char) :
    ∀ m0, (∀ y ∈ l, keyf y ≠ some k) →
      mapGet (l.foldl (fun m r =>
        match keyf r with
        | some k2 => mapSet m k2 (valf r)
        | none => m) m0) k = mapGet m0 k := by
  induction l with
  | nil => intro m0 _; rfl
  | cons y t ih =>
    intro m0 h
    rw [List.foldl_cons]
    rw [ih _ (fun y2 hy2 => h y2 (by simp [hy2]))]
    exact buildMapStep_get keyf valf m0 y k (h y (by simp))

theorem foldl_build_get_unique {V : Type} (keyf : Row → Option (List Char)) (valf : Row → V)
    (l : List Row) (x : Row) (k : List Char) (hkx : keyf x = some k) :
    ∀ m0, x ∈ l → (∀ y ∈ l, keyf y = some k → y = x) →
      mapGet (l.foldl (fun m r =>
        match keyf r with
        | some k2 => mapSet m k2 (valf r)
        | none => m) m0) k = some (valf x) := by
  induction l with
  | nil => intro m0 hx; exact absurd hx (by simp)
  | cons y t ih =>
    intro m0 hx huniq
    rw [List.foldl_cons]
    by_cases hxt : x ∈ t
    · exact ih _ hxt (fun y2 hy2 => huniq y2 (by simp [hy2]))
    · have hxy : x = y := by
        rcases List.mem_cons.mp hx with h | h
        · exact h
        · exact absurd h hxt
      subst hxy
      have hnone : ∀ y2 ∈ t, keyf y2 ≠ some k := by
        intro y2 hy2 hk2
        exact hxt (huniq y2 (by simp [hy2]) hk2 ▸ hy2)
      rw [foldl_build_get_none keyf valf t k _ hnone]
      rw [hkx]
      simp only []
      rw [mapGet_mapSet_cases, if_pos rfl]

theorem mapGet_buildMap_unique {V : Type} (l : List Row) (keyf : Row → Option (List Char))
    (valf : Row → V) (x : Row) (k : List Char) (hx : x ∈ l) (hkx : keyf x = some k)
    (huniq : ∀ y ∈ l, keyf y = some k → y = x) :
    mapGet (buildMap l keyf valf) k = some (valf x) :=
  foldl_build_get_unique keyf valf l x k hkx [] hx huniq

theorem mapGet_buildMap_none {V : Type} (l : List Row) (keyf : Row → Option (List Char))
    (valf : Row → V) (k : List Char) (h : ∀ y ∈ l, keyf y ≠ some k) :
    mapGet (buildMap l keyf valf) k = none :=
  foldl_build_get_none keyf valf l k [] h

theorem contains_cons_eq (seen : List (Option (List Char))) (a x : Option (List Char)) :
    (a :: seen).contains x = ((x == a) || seen.contains x) := rfl

theorem dedup_subset (l : List Row) :
    ∀ seen r, r ∈ dedupByKodeAux l seen → r ∈ l := by
  induction l with
  | nil => intro seen r hr; exact absurd hr (by simp [dedupByKodeAux])
  | cons y t ih =>
    intro seen r hr
    by_cases hc : seen.contains (kodeOfRow y) = true
    · rw [dedupByKodeAux, if_pos hc] at hr
      exact List.mem_cons_of_mem y (ih seen r hr)
    · rw [dedupByKodeAux, if_neg hc] at hr
      rcases List.mem_cons.mp hr with h | h
      · exact h ▸ List.mem_cons_self y t
      · exact List.mem_cons_of_mem y (ih _ r h)

theorem dedup_not_seen (l : List Row) :
    ∀ seen r, r ∈ dedupByKodeAux l seen → seen.contains (kodeOfRow r) = false := by
  induction l with
  | nil => intro seen r hr; exact absurd hr (by simp [dedupByKodeAux])
  | cons y t ih =>
    intro seen r hr
    by_cases hc : seen.contains (kodeOfRow y) = true
    · rw [dedupByKodeAux, if_pos hc] at hr
      exact ih seen r hr
    · rw [dedupByKodeAux, if_neg hc] at hr
      rcases List.mem_cons.mp hr with h | h
      · rw [h]; exact eq_false_of_ne_true hc
      · have h2 := ih _ r h
        rw [contains_cons_eq] at h2
        exact (Bool.or_eq_false_iff.mp h2).2

theorem dedup_key_unique (p n : List Row) (e : Row) (k : List Char)
    (hke : kodeOfRow e = some k) :
    ∀ seen, e ∈ p → (∀ y ∈ p, kodeOfRow y = some k → y = e) →
      seen.contains (some k) = false →
      ∀ r ∈ dedupByKodeAux (p ++ n) seen, kodeOfRow r = some k → r = e := by
  induction p with
  | nil => intro seen he; exact absurd he (by simp)
  | cons y t ih =>
    intro seen he huniq hseen r hr hkr
    rw [List.cons_append] at hr
    by_cases hc : seen.contains (kodeOfRow y) = true
    · rw [dedupByKodeAux, if_pos hc] at hr
      have hyt : e ∈ t := by
        rcases List.mem_cons.mp he with h | h
        · subst h; rw [hke] at hc; rw [hseen] at hc; exact absurd hc (by decide)
        · exact h
      exact ih seen hyt (fun y2 hy2 => huniq y2 (by simp [hy2])) hseen r hr hkr
    · rw [dedupByKodeAux, if_neg hc] at hr
      rcases List.mem_cons.mp hr with h | h
      · subst h; exact huniq r (by simp) hkr
      · by_cases hky : kodeOfRow y = some k
        · have hcontra := dedup_not_seen (t ++ n) _ r h
          rw [contains_cons_eq, hkr, hky] at hcontra
          simp at hcontra
        · have hyt : e ∈ t := by
            rcases List.mem_cons.mp he with h2 | h2
            · subst h2; exact absurd hke hky
            · exact h2
          refine ih _ hyt (fun y2 hy2 => huniq y2 (by simp [hy2])) ?_ r h hkr
          rw [contains_cons_eq, hseen]
          have hbeq : ((some k : Option (List Char)) == kodeOfRow y) = false :=
            beq_eq_false_iff_ne.mpr (fun hh => hky hh.symm)
          rw [hbeq]
          rfl

theorem kodeOfRow_link {r : Row} {k : List Char} (h : kodeOfRow r = some k) :
    ∃ s : String, rowGet r colLink = some (Val.vstr s) ∧ extract_finnkode s.toList = some k := by
  unfold kodeOfRow at h
  cases hl : rowGet r colLink with
  | none => rw [hl] at h; exact absurd h (by simp)
  | some v =>
    cases v with
    | vnum q => rw [hl] at h; exact absurd h (by simp)
    | vstr s => rw [hl] at h; exact ⟨s, rfl, h⟩


theorem fillCellFrom_get_other {s a : Row} {c : String} {nv : Option Val} (cget : String)
    (h : c ≠ cget) : rowGet (fillCellFrom s a c nv) cget = rowGet a cget := by
  unfold fillCellFrom
  cases rowGet s c <;> cases nv <;> first | rfl | rw [rowGet_rowSet_ne h]

theorem fillCellFrom_hit {s a : Row} {c : String} {nv : Option Val} {v : Val}
    (hs : rowGet s c = none) (hnv : nv = some v) : fillCellFrom s a c nv = rowSet a c v := by
  unfold fillCellFrom
  rw [hs, hnv]

theorem fillCellFrom_present {s a : Row} {c : String} {nv : Option Val} {w : Val}
    (hs : rowGet s c = some w) : fillCellFrom s a c nv = a := by
  unfold fillCellFrom
  rw [hs]

theorem fillCoordsRow_none {m : List (List Char × (Option Val × Option Val × Option Val))}
    {r : Row} (hk : kodeOfRow r = none) : fillCoordsRow m r = r := by
  unfold fillCoordsRow
  rw [hk]

theorem fillCoordsRow_miss {m : List (List Char × (Option Val × Option Val × Option Val))}
    {r : Row} {k : List Char} (hk : kodeOfRow r = some k) (hm : mapGet m k = none) :
    fillCoordsRow m r = r := by
  unfold fillCoordsRow
  rw [hk]
  show (match mapGet m k with
        | some (la, lo, st) =>
          fillCellFrom r (fillCellFrom r (fillCellFrom r r colLatitude la) colLongitude lo)
            colGeocodeStatus st
        | none => r) = r
  rw [hm]

theorem fillCoordsRow_hit {m : List (List Char × (Option Val × Option Val × Option Val))}
    {r : Row} {k : List Char} {la lo st : Option Val} (hk : kodeOfRow r = some k)
    (hm : mapGet m k = some (la, lo, st)) :
    fillCoordsRow m r =
      fillCellFrom r (fillCellFrom r (fillCellFrom r r colLatitude la) colLongitude lo)
        colGeocodeStatus st := by
  unfold fillCoordsRow
  rw [hk]
  show (match mapGet m k with
        | some (la, lo, st) =>
          fillCellFrom r (fillCellFrom r (fillCellFrom r r colLatitude la) colLongitude lo)
            colGeocodeStatus st
        | none => r) = _
  rw [hm]

theorem fillCoords_get_other (m : List (List Char × (Option Val × Option Val × Option Val)))
    (r : Row) (c : String) (hc1 : colLatitude ≠ c) (hc2 : colLongitude ≠ c)
    (hc3 : colGeocodeStatus ≠ c) :
    rowGet (fillCoordsRow m r) c = rowGet r c := by
  cases hk : kodeOfRow r with
  | none => rw [fillCoordsRow_none hk]
  | some k =>
    cases hm : mapGet m k with
    | none => rw [fillCoordsRow_miss hk hm]
    | some triple =>
      obtain ⟨la, lo, st⟩ := triple
      rw [fillCoordsRow_hit hk hm, fillCellFrom_get_other c hc3, fillCellFrom_get_other c hc2,
        fillCellFrom_get_other c hc1]

theorem fillCoords_preserves (m : List (List Char × (Option Val × Option Val × Option Val)))
    (r : Row) (c : String) (v : Val) (hv : rowGet r c = some v) :
    rowGet (fillCoordsRow m r) c = some v := by
  cases hk : kodeOfRow r with
  | none => rw [fillCoordsRow_none hk]; exact hv
  | some k =>
    cases hm : mapGet m k with
    | none => rw [fillCoordsRow_miss hk hm]; exact hv
    | some triple =>
      obtain ⟨la, lo, st⟩ := triple
      rw [fillCoordsRow_hit hk hm]
      by_cases h1 : c = colLatitude
      · subst h1
        rw [fillCellFrom_get_other colLatitude (by decide),
          fillCellFrom_get_other colLatitude (by decide), fillCellFrom_present hv]
        exact hv
      · by_cases h2 : c = colLongitude
        · subst h2
          rw [fillCellFrom_get_other colLongitude (by decide), fillCellFrom_present hv,
            fillCellFrom_get_other colLongitude (fun hh => h1 hh.symm)]
          exact hv
        · by_cases h3 : c = colGeocodeStatus
          · subst h3
            rw [fillCellFrom_present hv,
              fillCellFrom_get_other colGeocodeStatus (fun hh => h2 hh.symm),
              fillCellFrom_get_other colGeocodeStatus (fun hh => h1 hh.symm)]
            exact hv
          · rw [fillCellFrom_get_other c (fun hh => h3 hh.symm),
              fillCellFrom_get_other c (fun hh => h2 hh.symm),
              fillCellFrom_get_other c (fun hh => h1 hh.symm)]
            exact hv

theorem fillCoords_lat {m : List (List Char × (Option Val × Option Val × Option Val))}
    {r : Row} {k : List Char} {lv : Val} {lo st : Option Val} (hk : kodeOfRow r = some k)
    (hm : mapGet m k = some (some lv, lo, st)) (hla : rowGet r colLatitude = none) :
    rowGet (fillCoordsRow m r) colLatitude = some lv := by
  rw [fillCoordsRow_hit hk hm, fillCellFrom_get_other colLatitude (by decide),
    fillCellFrom_get_other colLatitude (by decide), fillCellFrom_hit hla rfl,
    rowGet_rowSet_self]

theorem fillCoords_lng {m : List (List Char × (Option Val × Option Val × Option Val))}
    {r : Row} {k : List Char} {lv : Val} {la st : Option Val} (hk : kodeOfRow r = some k)
    (hm : mapGet m k = some (la, some lv, st)) (hlo : rowGet r colLongitude = none) :
    rowGet (fillCoordsRow m r) colLongitude = some lv := by
  rw [fillCoordsRow_hit hk hm, fillCellFrom_get_other colLongitude (by decide),
    fillCellFrom_hit hlo rfl, rowGet_rowSet_self]

theorem fillCoords_status {m : List (List Char × (Option Val × Option Val × Option Val))}
    {r : Row} {k : List Char} {lv : Val} {la lo : Option Val} (hk : kodeOfRow r = some k)
    (hm : mapGet m k = some (la, lo, some lv)) (hst : rowGet r colGeocodeStatus = none) :
    rowGet (fillCoordsRow m r) colGeocodeStatus = some lv := by
  rw [fillCoordsRow_hit hk hm, fillCellFrom_hit hst rfl, rowGet_rowSet_self]

theorem restore_none {m : List (List Char × Option Val)} {r : Row}
    (hk : kodeOfRow r = none) : restoreDateReadRow m r = r := by
  unfold restoreDateReadRow
  rw [hk]

theorem restore_eq_match {m : List (List Char × Option Val)} {r : Row} {k : List Char}
    (hk : kodeOfRow r = some k) :
    restoreDateReadRow m r = (match mapGet m k with
                              | some (some d) => rowSet r colDateRead d
                              | _ => r) := by
  unfold restoreDateReadRow
  rw [hk]

theorem restore_hit {m : List (List Char × Option Val)} {r : Row} {k : List Char} {d : Val}
    (hk : kodeOfRow r = some k) (hm : mapGet m k = some (some d)) :
    restoreDateReadRow m r = rowSet r colDateRead d := by
  rw [restore_eq_match hk, hm]

theorem restore_miss {m : List (List Char × Option Val)} {r : Row} {k : List Char}
    (hk : kodeOfRow r = some k) (hm : mapGet m k = none) :
    restoreDateReadRow m r = r := by
  rw [restore_eq_match hk, hm]

theorem restore_get_other {m : List (List Char × Option Val)} {r : Row} (c : String)
    (hc : colDateRead ≠ c) : rowGet (restoreDateReadRow m r) c = rowGet r c := by
  cases hk : kodeOfRow r with
  | none => rw [restore_none hk]
  | some k =>
    rw [restore_eq_match hk]
    cases hm : mapGet m k with
    | none => rfl
    | some ov =>
      cases ov with
      | none => rfl
      | some d => rw [rowGet_rowSet_ne hc]

theorem applyExisting_cons (r : Row) (p : String × Val) (t : List (String × Val)) :
    applyExisting r (p :: t) =
      applyExisting (if p.1 = colDateRead then rowSet r p.1 p.2
        else if (rowGet r p.1).isNone then rowSet r p.1 p.2 else r) t := by
  unfold applyExisting
  rw [List.foldl_cons]

theorem applyExisting_get_other (e : List (String × Val)) (c : String) :
    ∀ r, (∀ p ∈ e, p.1 ≠ c) → rowGet (applyExisting r e) c = rowGet r c := by
  induction e with
  | nil => intro r _; rfl
  | cons p t ih =>
    intro r hce
    rw [applyExisting_cons]
    rw [ih _ (fun p2 hp2 => hce p2 (by simp [hp2]))]
    by_cases h1 : p.1 = colDateRead
    · rw [if_pos h1, rowGet_rowSet_ne (hce p (by simp))]
    · rw [if_neg h1]
      by_cases h2 : (rowGet r p.1).isNone = true
      · rw [if_pos h2, rowGet_rowSet_ne (hce p (by simp))]
      · rw [if_neg h2]

theorem applyExisting_get_present (e : List (String × Val)) (c : String) (v : Val)
    (hc : c ≠ colDateRead) :
    ∀ r, rowGet r c = some v → rowGet (applyExisting r e) c = some v := by
  induction e with
  | nil => intro r hv; exact hv
  | cons p t ih =>
    intro r hv
    rw [applyExisting_cons]
    by_cases h1 : p.1 = colDateRead
    · rw [if_pos h1]
      refine ih _ ?_
      rw [rowGet_rowSet_ne (fun hh => hc (h1 ▸ hh).symm)]
      exact hv
    · rw [if_neg h1]
      by_cases h2 : (rowGet r p.1).isNone = true
      · rw [if_pos h2]
        refine ih _ ?_
        by_cases h3 : p.1 = c
        · rw [h3, hv] at h2; simp at h2
        · rw [rowGet_rowSet_ne h3]; exact hv
      · rw [if_neg h2]
        exact ih _ hv

theorem applyExisting_date (e : List (String × Val)) (d : Val) :
    ∀ r, (e.map Prod.fst).Nodup → rowGet e colDateRead = some d →
      rowGet (applyExisting r e) colDateRead = some d := by
  induction e with
  | nil => intro r _ hd; exact absurd hd (by simp [rowGet])
  | cons p t ih =>
    intro r hnodup hd
    rw [applyExisting_cons]
    by_cases h1 : p.1 = colDateRead
    · have hd2 : rowGet (p :: t) colDateRead = some p.2 := by
        show (if p.1 = colDateRead then some p.2 else rowGet t colDateRead) = some p.2
        rw [if_pos h1]
      have hdv : p.2 = d := by
        rw [hd] at hd2
        injection hd2 with hh
        exact hh.symm
      have hnc : p.1 ∉ List.map Prod.fst t ∧ (List.map Prod.fst t).Nodup := by
        rw [List.map_cons] at hnodup
        exact List.nodup_cons.mp hnodup
      have hnot : ∀ p2 ∈ t, p2.1 ≠ colDateRead := by
        intro p2 hp2 hp2c
        apply hnc.1
        rw [h1, ← hp2c]
        exact List.mem_map_of_mem Prod.fst hp2
      rw [applyExisting_get_other t colDateRead _ hnot, if_pos h1, h1, rowGet_rowSet_self, hdv]
    · have hstep : rowGet (p :: t) colDateRead = rowGet t colDateRead := by
        show (if p.1 = colDateRead then some p.2 else rowGet t colDateRead)
            = rowGet t colDateRead
        rw [if_neg h1]
      rw [hstep] at hd
      rw [List.map_cons] at hnodup
      have hnodup2 : (t.map Prod.fst).Nodup := (List.nodup_cons.mp hnodup).2
      by_cases h2 : (rowGet r p.1).isNone = true
      · rw [if_neg h1, if_pos h2]
        exact ih _ hnodup2 hd
      · rw [if_neg h1, if_neg h2]
        exact ih _ hnodup2 hd

theorem applyRow_none {data : List (List Char × Row)} {r : Row} (hk : kodeOfRow r = none) :
    applyRow data r = r := by
  unfold applyRow
  rw [hk]

theorem applyRow_eq_match {data : List (List Char × Row)} {r : Row} {k : List Char}
    (hk : kodeOfRow r = some k) :
    applyRow data r = (match mapGet data k with
                       | some e => applyExisting r e
                       | none => r) := by
  unfold applyRow
  rw [hk]

theorem applyRow_hit {data : List (List Char × Row)} {r : Row} {k : List Char} {e : Row}
    (hk : kodeOfRow r = some k) (hm : mapGet data k = some e) :
    applyRow data r = applyExisting r e := by
  rw [applyRow_eq_match hk, hm]

theorem applyRow_kode (data : List (List Char × Row)) (r : Row) :
    kodeOfRow (applyRow data r) = kodeOfRow r := by
  cases hk : kodeOfRow r with
  | none => rw [applyRow_none hk, hk]
  | some k =>
    cases hm : mapGet data k with
    | none =>
      rw [applyRow_eq_match hk, hm]
      exact hk
    | some e =>
      rw [applyRow_hit hk hm]
      obtain ⟨s, hs, hx⟩ := kodeOfRow_link hk
      have hlink := applyExisting_get_present e colLink (Val.vstr s) (by decide) r hs
      have h2 : kodeOfRow (applyExisting r e) = some k := by
        unfold kodeOfRow
        rw [hlink]
        exact hx
      rw [h2]

theorem kode_rowSet_ne {r : Row} {cset : String} {v : Val} (h : cset ≠ colLink) :
    kodeOfRow (rowSet r cset v) = kodeOfRow r := by
  unfold kodeOfRow
  rw [rowGet_rowSet_ne h]

theorem fill_kode (m : List (List Char × (Option Val × Option Val × Option Val))) (r : Row) :
    kodeOfRow (fillCoordsRow m r) = kodeOfRow r := by
  unfold kodeOfRow
  rw [fillCoords_get_other m r colLink (by decide) (by decide) (by decide)]

theorem restore_kode (m : List (List Char × Option Val)) (r : Row) :
    kodeOfRow (restoreDateReadRow m r) = kodeOfRow r := by
  unfold kodeOfRow
  rw [restore_get_other colLink (by decide)]

theorem dateReadKey_kode {r : Row} {k : List Char} (h : dateReadKey r = some k) :
    kodeOfRow r = some k := by
  unfold dateReadKey at h
  cases hk : kodeOfRow r with
  | none => rw [hk] at h; exact absurd h (by cases rowGet r colDateRead <;> simp)
  | some k2 =>
    rw [hk] at h
    cases hd : rowGet r colDateRead with
    | none => rw [hd] at h; exact absurd h (by simp)
    | some d => rw [hd] at h; simp at h; rw [h]

theorem coordsKey_kode {r : Row} {k : List Char} (h : coordsKey r = some k) :
    kodeOfRow r = some k := by
  unfold coordsKey at h
  cases hk : kodeOfRow r with
  | none => rw [hk] at h; exact absurd h (by simp)
  | some k2 =>
    rw [hk] at h
    have h2 : (if ((rowGet r colLatitude).isSome || (rowGet r colLongitude).isSome) = true
        then some k2 else none) = some k := h
    by_cases hc : ((rowGet r colLatitude).isSome || (rowGet r colLongitude).isSome) = true
    · rw [if_pos hc] at h2; simp at h2; rw [h2]
    · rw [if_neg hc] at h2; exact absurd h2 (by simp)

/-- C5: once a property's `date_read` is set in the persisted store, merging
the same property again (with any new batch, in particular one carrying a
different current time) leaves every reconciled row of that property with the
original persisted timestamp. -/
theorem first_seen_immutable (persisted new : List Row) (e : Row) (k : List Char) (d : Val)
    (he : e ∈ persisted) (hk : kodeOfRow e = some k) (hd : rowGet e colDateRead = some d)
    (hnodup : (e.map Prod.fst).Nodup)
    (huniq : ∀ r2 ∈ persisted, kodeOfRow r2 = some k → r2 = e) :
    ∀ r ∈ reconcileStore persisted new, kodeOfRow r = some k →
      rowGet r colDateRead = some d := by
  intro r hr hkr
  obtain ⟨r1, hr1, rfl⟩ := List.mem_map.mp hr
  have hdata : mapGet (buildExistingData persisted) k = some e :=
    mapGet_buildMap_unique persisted kodeOfRow (fun r => r) e k he hk huniq
  rw [applyRow_kode] at hkr
  rw [applyRow_hit hkr hdata]
  exact applyExisting_date e d r1 hnodup hd

/-- Witness for C5 at a concrete persisted row merged with a re-fetched copy
carrying a newer timestamp. -/
theorem first_seen_immutable_witness :
    rowGet rowC5e colDateRead = some (Val.vstr ("2024-01-01 10:00")) :=
  first_seen_immutable [rowC5e] [rowC5n] rowC5e (("567890").toList)
    (Val.vstr ("2024-01-01 10:00")) (by decide) (by decide) (by decide) (by decide)
    (by decide) rowC5e (by decide) (by decide)

/-- Counterexample to C6 as stated: when the persisted store and a new batch
hold the same finnkode, the reconciled row does not take the new batch's
descriptive fields.  Here the new row carries a title, yet the merged row has
none, because `drop_duplicates(keep='first')` keeps the persisted row and only
coordinates and geocode status are backfilled. -/
theorem merge_overwrite_counterexample :
    kodeOfRow rowC6e = some (("678901").toList) ∧
    kodeOfRow rowC6n = some (("678901").toList) ∧
    rowGet rowC6n colTitle = some (Val.vstr ("Fin leilighet")) ∧
    rowGet rowC6e colTitle = none ∧
    (reconcileStore [rowC6e] [rowC6n]).map (fun r => rowGet r colTitle) = [none] := by
  refine ⟨by decide, by decide, by decide, by decide, by decide⟩

/-- C6 (amended): when the persisted store holds a unique row `e` for a
finnkode and the new batch holds a unique row `n0` for the same finnkode, every
reconciled row for that finnkode (i) keeps all of `e`'s present cells, in
particular `e`'s `date_read`; (ii)/(iii) adopts `n0`'s latitude/longitude
exactly where `e` misses them; (iv) adopts `n0`'s geocode status where `e`
misses it, provided `n0` carries a coordinate; and (v) every other column
absent from `e` — titles, prices, or any descriptive field from the new batch —
stays absent. -/
theorem merge_conflict_resolution (persisted new : List Row) (e n0 : Row) (k : List Char)
    (he : e ∈ persisted) (hke : kodeOfRow e = some k)
    (hnodup : (e.map Prod.fst).Nodup)
    (huniqp : ∀ r2 ∈ persisted, kodeOfRow r2 = some k → r2 = e)
    (hn0 : n0 ∈ new) (hkn0 : kodeOfRow n0 = some k)
    (huniqn : ∀ r2 ∈ new, kodeOfRow r2 = some k → r2 = n0) :
    ∀ r ∈ reconcileStore persisted new, kodeOfRow r = some k →
      ((∀ c v, rowGet e c = some v → rowGet r c = some v) ∧
       (rowGet e colLatitude = none → ∀ lv, rowGet n0 colLatitude = some lv →
         rowGet r colLatitude = some lv) ∧
       (rowGet e colLongitude = none → ∀ lv, rowGet n0 colLongitude = some lv →
         rowGet r colLongitude = some lv) ∧
       (rowGet e colGeocodeStatus = none →
         ((rowGet n0 colLatitude).isSome || (rowGet n0 colLongitude).isSome) = true →
         ∀ sv, rowGet n0 colGeocodeStatus = some sv → rowGet r colGeocodeStatus = some sv) ∧
       (∀ c, colLatitude ≠ c → colLongitude ≠ c → colGeocodeStatus ≠ c →
         rowGet e c = none → rowGet r c = none)) := by
  intro r hr hkr
  obtain ⟨r1, hr1, rfl⟩ := List.mem_map.mp hr
  rw [applyRow_kode] at hkr
  have hdata : mapGet (buildExistingData persisted) k = some e :=
    mapGet_buildMap_unique persisted kodeOfRow (fun r => r) e k he hke huniqp
  simp only [mergeStep] at hr1
  rw [List.mem_filter] at hr1
  obtain ⟨hr1m, -⟩ := hr1
  rw [List.mem_map] at hr1m
  obtain ⟨rf, hrf, hrfe⟩ := hr1m
  rw [List.mem_map] at hrf
  obtain ⟨r2, hr2d, hr2e⟩ := hrf
  subst hr2e
  subst hrfe
  have hkr2 : kodeOfRow r2 = some k := by
    rw [restore_kode, fill_kode] at hkr
    exact hkr
  have hr2 : r2 = e := dedup_key_unique persisted new e k hke [] he huniqp rfl r2 hr2d hkr2
  subst r2
  rw [applyRow_hit hkr hdata]
  have hckall : ((rowGet n0 colLatitude).isSome || (rowGet n0 colLongitude).isSome) = true →
      coordsKey n0 = some k := by
    intro hsome
    have h2 : coordsKey n0 = (if ((rowGet n0 colLatitude).isSome ||
        (rowGet n0 colLongitude).isSome) = true then some k else none) := by
      unfold coordsKey
      rw [hkn0]
    rw [h2, if_pos hsome]
  have hcmval : ((rowGet n0 colLatitude).isSome || (rowGet n0 colLongitude).isSome) = true →
      mapGet (buildMap new coordsKey coordsVal) k =
        some (rowGet n0 colLatitude, rowGet n0 colLongitude, rowGet n0 colGeocodeStatus) :=
    fun hsome =>
      mapGet_buildMap_unique new coordsKey coordsVal n0 k hn0 (hckall hsome)
        (fun y hy hky => huniqn y hy (coordsKey_kode hky))
  refine ⟨?_, ?_, ?_, ?_, ?_⟩
  · intro c v hv
    by_cases hcd : c = colDateRead
    · subst hcd
      exact applyExisting_date e v _ hnodup hv
    · refine applyExisting_get_present e c v hcd _ ?_
      rw [restore_get_other c (fun hh => hcd hh.symm)]
      exact fillCoords_preserves _ e c v hv
  · intro hnone lv hlv
    have hcm2 : mapGet (buildMap new coordsKey coordsVal) k =
        some (some lv, rowGet n0 colLongitude, rowGet n0 colGeocodeStatus) := by
      rw [hcmval (by rw [hlv]; rfl)]
      rw [hlv]
    refine applyExisting_get_present e colLatitude lv (by decide) _ ?_
    rw [restore_get_other colLatitude (by decide)]
    exact fillCoords_lat hke hcm2 hnone
  · intro hnone lv hlv
    have hcm2 : mapGet (buildMap new coordsKey coordsVal) k =
        some (rowGet n0 colLatitude, some lv, rowGet n0 colGeocodeStatus) := by
      rw [hcmval (by rw [hlv]; exact Bool.or_true _)]
      rw [hlv]
    refine applyExisting_get_present e colLongitude lv (by decide) _ ?_
    rw [restore_get_other colLongitude (by decide)]
    exact fillCoords_lng hke hcm2 hnone
  · intro hnone hsome sv hsv
    have hcm2 : mapGet (buildMap new coordsKey coordsVal) k =
        some (rowGet n0 colLatitude, rowGet n0 colLongitude, some sv) := by
      rw [hcmval hsome]
      rw [hsv]
    refine applyExisting_get_present e colGeocodeStatus sv (by decide) _ ?_
    rw [restore_get_other colGeocodeStatus (by decide)]
    exact fillCoords_status hke hcm2 hnone
  · intro c hc1 hc2 hc3 hnone
    have hce : ∀ p ∈ e, p.1 ≠ c := (rowGet_none_iff e c).mp hnone
    by_cases hcd : c = colDateRead
    · subst hcd
      have hodr : mapGet (buildMap persisted dateReadKey (fun r => rowGet r colDateRead)) k
          = none := by
        refine mapGet_buildMap_none persisted dateReadKey _ k ?_
        intro y hy hky
        have hye : y = e := huniqp y hy (dateReadKey_kode hky)
        subst hye
        unfold dateReadKey at hky
        rw [hke, hnone] at hky
        simp at hky
      rw [applyExisting_get_other e colDateRead _ hce]
      rw [restore_miss (by rw [fill_kode]; exact hke) hodr]
      rw [fillCoords_get_other _ _ colDateRead (by decide) (by decide) (by decide)]
      exact hnone
    · rw [applyExisting_get_other e c _ hce]
      rw [restore_get_other c (fun hh => hcd hh.symm)]
      rw [fillCoords_get_other _ _ c hc1 hc2 hc3]
      exact hnone

/-- Witness for the amended C6 at a concrete conflict: the persisted row keeps
its fields, adopts the new coordinates, and does not adopt the new title. -/
theorem merge_conflict_resolution_witness :
    rowGet rowC6merged colLatitude = some (Val.vnum 59) ∧
    rowGet rowC6merged colTitle = none :=
  ⟨(merge_conflict_resolution [rowC6e] [rowC6n] rowC6e rowC6n (("678901").toList)
      (by decide) (by decide) (by decide) (by decide) (by decide) (by decide) (by decide)
      rowC6merged (by decide) (by decide)).2.1 (by decide) (Val.vnum 59) (by decide),
   (merge_conflict_resolution [rowC6e] [rowC6n] rowC6e rowC6n (("678901").toList)
      (by decide) (by decide) (by decide) (by decide) (by decide) (by decide) (by decide)
      rowC6merged (by decide) (by decide)).2.2.2.2 colTitle (by decide) (by decide)
      (by decide) (by decide)⟩
